import Mathlib

/-!
Verification of the Experience page controller
(src/Experience_Page/Experience.js) against its specification.

The controller is a browser script: pure helpers (string validation,
key collection) are embedded as Lean functions, and the stateful parts
(form/DOM error annotations, notification banners, timers, the parallax
ticking flag, the widget registry) are embedded as explicit state records
with step functions.  Machine-level details that the script does not
depend on (layout, pixels, real time) are not modelled; timers are
modelled as scheduled actions carrying their delay.
-/

namespace Experience

/-! ## String primitives

JavaScript string helpers used by the validators.  `jsWhitespace` is the
character class `\s` of JavaScript regular expressions (also the class
trimmed by `String.prototype.trim`). -/

/-- The JavaScript whitespace class `\s`: ASCII whitespace, NBSP, Ogham
space mark, the Unicode space separators U+2000..U+200A, line/paragraph
separators, narrow/medium spaces, ideographic space and the BOM. -/
def jsWhitespace (c : Char) : Bool :=
  let n := c.toNat
  n = 32 || n = 9 || n = 10 || n = 13 || n = 11 || n = 12 ||
  n = 0xA0 || n = 0x1680 || (0x2000 ≤ n && n ≤ 0x200A) ||
  n = 0x2028 || n = 0x2029 || n = 0x202F || n = 0x205F || n = 0x3000 || n = 0xFEFF

/-- `String.prototype.trim`: strip leading and trailing `\s` characters. -/
def jsTrim (s : String) : String :=
  String.mk (((s.data.dropWhile (fun c => jsWhitespace c)).reverse.dropWhile
    (fun c => jsWhitespace c)).reverse)

/-- A character admissible inside the email regex classes `[^\s@]`. -/
def emailChar (c : Char) : Bool := !jsWhitespace c && c != '@'

/-- The domain part of the email regex, `[^\s@]+\.[^\s@]+`: some dot sits
strictly inside the segment (nonempty part before and after it). -/
def emailDomainShape (cs : List Char) : Bool :=
  (List.range cs.length).any (fun j =>
    cs.get? j == some '.' && decide (0 < j) && decide (j + 1 < cs.length))

/-- The email test `/^[^\s@]+@[^\s@]+\.[^\s@]+$/` from `validateField` and
`handleNewsletterSubmission` (Experience.js lines 198 and 339): exactly one
`@`, a nonempty whitespace-free local part, and a domain part containing an
interior dot. -/
def emailShape (s : String) : Bool :=
  match s.data.splitOn '@' with
  | [localPart, domainPart] =>
    !localPart.isEmpty && !domainPart.isEmpty &&
    localPart.all emailChar && domainPart.all emailChar &&
    emailDomainShape domainPart
  | _ => false

/-- The characters removed before the phone test,
`value.replace(/[\s\-\(\)]/g, '')` (Experience.js line 208). -/
def stripPhone (s : String) : String :=
  String.mk (s.data.filter (fun c => !(jsWhitespace c || c == '-' || c == '(' || c == ')')))

/-- The phone test `/^[\+]?[1-9][\d]{0,15}$/` (Experience.js line 207):
an optional leading plus, then one digit 1-9, then at most 15 more digits. -/
def phoneShape (s : String) : Bool :=
  let ds := match s.data with
    | '+' :: rest => rest
    | l => l
  match ds with
  | [] => false
  | c :: rest => c.isDigit && c != '0' && rest.all Char.isDigit && decide (rest.length ≤ 15)

/-! ## Date values

`new Date(value)` on a `datetime-local` value string.  A valid
`datetime-local` value is `YYYY-MM-DDTHH:MM` with optional `:SS`; parsing
yields a key that is strictly monotone in the (year, month, day, hour,
minute, second) tuple, so key order coincides with timestamp order for a
fixed local offset (DST transitions are out of scope).  Any other string is
an Invalid Date, modelled as `none`; comparisons with an Invalid Date are
`false`, mirroring `NaN` comparisons. -/

def digitNat (c : Char) : Option Nat :=
  if c.isDigit then some (c.toNat - 48) else none

def parse2 (a b : Char) : Option Nat :=
  match digitNat a, digitNat b with
  | some x, some y => some (x * 10 + y)
  | _, _ => none

def parse4 (a b c d : Char) : Option Nat :=
  match parse2 a b, parse2 c d with
  | some x, some y => some (x * 100 + y)
  | _, _ => none

def isLeapYear (y : Nat) : Bool :=
  (y % 4 == 0 && y % 100 != 0) || y % 400 == 0

def daysInMonth (y m : Nat) : Nat :=
  if m = 2 then (if isLeapYear y then 29 else 28)
  else if m = 4 ∨ m = 6 ∨ m = 9 ∨ m = 11 then 30
  else 31

/-- Mixed-radix key of a calendar instant, monotone in the tuple. -/
def mkDateKey (y mo d h mi se : Nat) : Option Nat :=
  if 1 ≤ mo ∧ mo ≤ 12 ∧ 1 ≤ d ∧ d ≤ daysInMonth y mo ∧ h ≤ 23 ∧ mi ≤ 59 ∧ se ≤ 59 then
    some (((((y * 13 + mo) * 32 + d) * 24 + h) * 60 + mi) * 60 + se)
  else none

/-- `new Date(s)` for a `datetime-local` style string: `some` key for a
valid `YYYY-MM-DDTHH:MM(:SS)?` string, `none` (Invalid Date) otherwise. -/
def parseDatetimeLocal (s : String) : Option Nat :=
  match s.data with
  | [y1, y2, y3, y4, '-', m1, m2, '-', d1, d2, 'T', h1, h2, ':', n1, n2] =>
    (match parse4 y1 y2 y3 y4, parse2 m1 m2, parse2 d1 d2, parse2 h1 h2, parse2 n1 n2 with
     | some y, some mo, some d, some h, some mi => mkDateKey y mo d h mi 0
     | _, _, _, _, _ => none)
  | [y1, y2, y3, y4, '-', m1, m2, '-', d1, d2, 'T', h1, h2, ':', n1, n2, ':', s1, s2] =>
    (match parse4 y1 y2 y3 y4, parse2 m1 m2, parse2 d1 d2, parse2 h1 h2, parse2 n1 n2,
        parse2 s1 s2 with
     | some y, some mo, some d, some h, some mi, some se => mkDateKey y mo d h mi se
     | _, _, _, _, _, _ => none)
  | _ => none

/-- JavaScript `a <= b` on two `Date` objects: numeric comparison of their
time values, `false` whenever either is Invalid (`NaN`). -/
def jsDateLe : Option Nat → Option Nat → Bool
  | some a, some b => decide (a ≤ b)
  | _, _ => false

/-- JavaScript `a < b` on two `Date` objects, `false` on Invalid Dates. -/
def jsDateLt : Option Nat → Option Nat → Bool
  | some a, some b => decide (a < b)
  | _, _ => false

/-! ## The booking form as DOM data

A form is a list of parent containers (`Group`), each holding its child
form controls in order plus the `.invalid-feedback` error elements that
`showFieldError` appends to the parent (`field.parentNode.appendChild`,
Experience.js line 247).  Error messages are kept per group, in insertion
order, because the source associates an error with a field only through
the shared parent: `clearFieldError` removes the first `.invalid-feedback`
found in `field.parentNode` (line 255), whichever field produced it.

The attributes validation reads (tag, type, required, value, name, id) are
grouped in `FieldCore`; the only per-field state validation writes is the
`is-invalid` class. -/

inductive Tag
  | input
  | selectTag
  deriving DecidableEq

inductive InputType
  | text
  | email
  | tel
  | datetimeLocal
  | otherType
  deriving DecidableEq

structure FieldCore where
  tag : Tag := Tag.input
  itype : InputType := InputType.text
  required : Bool := false
  value : String := ""
  defaultValue : String := ""
  name : String := ""
  id : String := ""
  deriving DecidableEq

structure Field where
  core : FieldCore
  invalidClass : Bool := false
  deriving DecidableEq

structure Group where
  fields : List Field
  errors : List String := []
  deriving DecidableEq

abbrev Form := List Group

/-- Replace the element at an index, identity out of range. -/
def listModify {α : Type} (f : α → α) : Nat → List α → List α
  | _, [] => []
  | 0, a :: as => f a :: as
  | n + 1, a :: as => a :: listModify f n as

/-- The control at position `(group index, field index)`. -/
def fieldAt (form : Form) (p : Nat × Nat) : Option Field :=
  match form.get? p.1 with
  | some g => g.fields.get? p.2
  | none => none

def coreAt (form : Form) (p : Nat × Nat) : Option FieldCore :=
  (fieldAt form p).map (fun fl => fl.core)

def valueAt (form : Form) (p : Nat × Nat) : String :=
  ((coreAt form p).map (fun c => c.value)).getD ""

/-- `clearFieldError` (Experience.js lines 253-259): drop the `is-invalid`
class of the field and remove the first `.invalid-feedback` element of its
parent, if any. -/
def clearGroupError (fi : Nat) (g : Group) : Group :=
  { fields := listModify (fun fl => { fl with invalidClass := false }) fi g.fields,
    errors := g.errors.drop 1 }

/-- `showFieldError` (Experience.js lines 238-248): clear first, then add
the `is-invalid` class and append a `.invalid-feedback` element holding the
message to the field's parent. -/
def showGroupError (fi : Nat) (msg : String) (g : Group) : Group :=
  let g1 := clearGroupError fi g
  { fields := listModify (fun fl => { fl with invalidClass := true }) fi g1.fields,
    errors := g1.errors ++ [msg] }

def clearFieldErrorAt (form : Form) (p : Nat × Nat) : Form :=
  listModify (clearGroupError p.2) p.1 form

def showFieldErrorAt (form : Form) (p : Nat × Nat) (msg : String) : Form :=
  listModify (showGroupError p.2 msg) p.1 form

/-! ## Field validation (`validateField`, Experience.js lines 185-233) -/

def msgRequired : String := "This field is required"
def msgEmail : String := "Please enter a valid email address"
def msgPhone : String := "Please enter a valid phone number"
def msgPastDate : String := "Please select a future date"
def msgRange : String := "Check-out date must be after check-in date"

/-- The error message `validateField` computes for a field, `none` when the
field is valid.  The checks run in source order and a later failing check
overwrites the message of an earlier one.  `today` is the key of today's
midnight (`today.setHours(0, 0, 0, 0)`). -/
def validateFieldMsg (today : Nat) (f : FieldCore) : Option String :=
  let value := jsTrim f.value
  let e : Option String :=
    if f.required = true ∧ value = "" then some msgRequired else none
  let e : Option String :=
    if f.itype = InputType.email ∧ value ≠ "" ∧ emailShape value = false
    then some msgEmail else e
  let e : Option String :=
    if f.itype = InputType.tel ∧ value ≠ "" ∧ phoneShape (stripPhone value) = false
    then some msgPhone else e
  if f.itype = InputType.datetimeLocal ∧ value ≠ "" ∧
      jsDateLt (parseDatetimeLocal value) (some today) = true
  then some msgPastDate else e

/-- `validateField` applied at a form position: shows the error when
invalid, clears it when valid, and reports validity. -/
def validateFieldAt (today : Nat) (form : Form) (p : Nat × Nat) : Bool × Form :=
  match fieldAt form p with
  | none => (true, form)
  | some fl =>
    match validateFieldMsg today fl.core with
    | some msg => (false, showFieldErrorAt form p msg)
    | none => (true, clearFieldErrorAt form p)

/-! ## Selectors

`querySelectorAll`/`querySelector` results in document order.  The
selectors only read the static attributes of the controls, so they are
defined over the `FieldCore` projection of the form; validation and error
display never change that projection. -/

def formCores (form : Form) : List (List FieldCore) :=
  form.map (fun g => g.fields.map (fun fl => fl.core))

def allCores (form : Form) : List FieldCore :=
  (formCores form).flatten

/-- Positions and cores of all controls, in document order. -/
def coresPositions : List (List FieldCore) → List ((Nat × Nat) × FieldCore)
  | [] => []
  | cs :: rest =>
    cs.enum.map (fun pr => ((0, pr.1), pr.2)) ++
    (coresPositions rest).map (fun pr => ((pr.1.1 + 1, pr.1.2), pr.2))

/-- `form.querySelectorAll('input[required], select[required]')`
(Experience.js line 156), as positions in document order. -/
def requiredPositions (form : Form) : List (Nat × Nat) :=
  (coresPositions (formCores form)).filterMap
    (fun pr => if pr.2.required = true then some pr.1 else none)

/-- CSS `:first-of-type` for an `input`: no earlier sibling shares the
`input` tag. -/
def isFirstOfTypeInput (cs : List FieldCore) (fi : Nat) : Bool :=
  (cs.take fi).all (fun c => c.tag != Tag.input)

/-- CSS `:last-of-type` for an `input`: no later sibling shares the
`input` tag. -/
def isLastOfTypeInput (cs : List FieldCore) (fi : Nat) : Bool :=
  (cs.drop (fi + 1)).all (fun c => c.tag != Tag.input)

/-- Positions matching `input[type="datetime-local"]` restricted by a
sibling predicate (`:first-of-type` or `:last-of-type`), document order. -/
def datetimeSel (ofType : List FieldCore → Nat → Bool) :
    List (List FieldCore) → List (Nat × Nat)
  | [] => []
  | cs :: rest =>
    cs.enum.filterMap (fun pr =>
      if pr.2.tag == Tag.input && pr.2.itype == InputType.datetimeLocal &&
          ofType cs pr.1
      then some (0, pr.1) else none) ++
    (datetimeSel ofType rest).map (fun p => (p.1 + 1, p.2))

/-- `form.querySelector('input[type="datetime-local"]:first-of-type')`
(Experience.js line 166). -/
def checkinPos (form : Form) : Option (Nat × Nat) :=
  (datetimeSel isFirstOfTypeInput (formCores form)).head?

/-- `form.querySelector('input[type="datetime-local"]:last-of-type')`
(Experience.js line 167). -/
def checkoutPos (form : Form) : Option (Nat × Nat) :=
  (datetimeSel isLastOfTypeInput (formCores form)).head?

/-! ## Full-form validation (`validateBookingForm`, lines 155-180) -/

/-- One iteration of the required-field loop: `if (!this.validateField(field))
isValid = false` with the field's error display side effect. -/
def validateStep (today : Nat) (acc : Bool × Form) (p : Nat × Nat) : Bool × Form :=
  let r := validateFieldAt today acc.2 p
  (acc.1 && r.1, r.2)

/-- The loop over `input[required], select[required]`: validate each in
document order (no short-circuit), accumulating validity. -/
def bookingRequiredPass (today : Nat) (form : Form) : Bool × Form :=
  (requiredPositions form).foldl (validateStep today) (true, form)

/-- The custom date-range check (lines 165-177): runs whenever both
selected datetime inputs exist and hold non-empty values; shows the
`InvalidRange` message on the check-out input when
`checkoutDate <= checkinDate`. -/
def crossCheckDateRange (acc : Bool × Form) : Bool × Form :=
  match checkinPos acc.2, checkoutPos acc.2 with
  | some ci, some co =>
    let vi := valueAt acc.2 ci
    let vo := valueAt acc.2 co
    if vi ≠ "" ∧ vo ≠ "" then
      if jsDateLe (parseDatetimeLocal vo) (parseDatetimeLocal vi) = true then
        (false, showFieldErrorAt acc.2 co msgRange)
      else acc
    else acc
  | _, _ => acc

/-- `validateBookingForm`: the required-field pass, then the cross-field
date-range check. -/
def validateBookingForm (today : Nat) (form : Form) : Bool × Form :=
  crossCheckDateRange (bookingRequiredPass today form)

/-- The effect of one required-loop iteration on a single-control group
(used to characterize the pass on one-control-per-parent forms). -/
def passGroup (today : Nat) (g : Group) : Group :=
  match g.fields with
  | [fl] =>
    if fl.core.required = true then
      match validateFieldMsg today fl.core with
      | some msg => showGroupError 0 msg g
      | none => clearGroupError 0 g
    else g
  | _ => g

/-- Whether a single-control group passes the required-field loop. -/
def passGroupOk (today : Nat) (g : Group) : Bool :=
  match g.fields with
  | [fl] =>
    if fl.core.required = true then (validateFieldMsg today fl.core).isNone else true
  | _ => true

/-! ## Data collection (`collectFormData`, lines 264-278) -/

/-- JavaScript object/`Map` assignment for string keys: overwrite in place
if present, append otherwise. -/
def jsMapSet {β : Type} (m : List (String × β)) (k : String) (v : β) :
    List (String × β) :=
  if m.any (fun kv => kv.1 == k) then
    m.map (fun kv => if kv.1 == k then (k, v) else kv)
  else m ++ [(k, v)]

/-- `input.name || input.id`. -/
def fieldKey (c : FieldCore) : String := if c.name ≠ "" then c.name else c.id

/-- JavaScript object/`Map` read: the value stored under a key. -/
def mapGet {β : Type} : List (String × β) → String → Option β
  | [], _ => none
  | kv :: rest, k => if kv.1 == k then some kv.2 else mapGet rest k

/-- One step of the `collectFormData` loop over `input, select` controls. -/
def collectStep (data : List (String × String)) (c : FieldCore) :
    List (String × String) :=
  if c.name ≠ "" ∨ c.id ≠ "" then jsMapSet data (fieldKey c) c.value else data

/-- `collectFormData`: over all inputs/selects in document order, record
`data[name || id] = value` for every control that has a name or an id. -/
def collectFormData (form : Form) : List (String × String) :=
  (allCores form).foldl collectStep []

/-! ## Notifications (`showNotification`/`hideNotification`, lines 434-500)

A notification element carries its message, severity class and the state
of its slide transform.  Timers are scheduled actions with an absolute
fire time; firing a timer is an explicit event, so any interleaving of
calls, close clicks and timer firings can be examined.  `nextId` gives
fresh DOM identities to created elements. -/

structure Notif where
  nid : Nat
  message : String
  ntype : String
  slidIn : Bool
  deriving DecidableEq

inductive NotifAction
  | animateIn (nid : Nat)
  | autoHide (nid : Nat)
  | removeNode (nid : Nat)
  deriving DecidableEq

structure NotifTimer where
  fireAt : Nat
  act : NotifAction
  deriving DecidableEq

structure NotifSys where
  notifs : List Notif
  timers : List NotifTimer
  now : Nat
  nextId : Nat
  deriving DecidableEq

def notifInit : NotifSys := { notifs := [], timers := [], now := 0, nextId := 0 }

/-- `document.body.contains(notification)`. -/
def containsNotif (s : NotifSys) (nid : Nat) : Bool :=
  s.notifs.any (fun n => n.nid == nid)

/-- `showNotification(message, type)` (lines 434-488): remove every
existing `.experience-notification` element, append a fresh banner (slid
out), and schedule the slide-in (100ms) and the auto-hide (5000ms). -/
def showNotification (msg t : String) (s : NotifSys) : NotifSys :=
  { notifs := [{ nid := s.nextId, message := msg, ntype := t, slidIn := false }],
    timers := s.timers ++
      [{ fireAt := s.now + 100, act := NotifAction.animateIn s.nextId },
       { fireAt := s.now + 5000, act := NotifAction.autoHide s.nextId }],
    now := s.now,
    nextId := s.nextId + 1 }

/-- `hideNotification` (lines 493-500): start the exit slide and schedule
the removal from the DOM 300ms later. -/
def hideNotification (nid : Nat) (s : NotifSys) : NotifSys :=
  { s with
    notifs := s.notifs.map (fun n =>
      if n.nid == nid then { n with slidIn := false } else n),
    timers := s.timers ++ [{ fireAt := s.now + 300, act := NotifAction.removeNode nid }] }

def runNotifAction (a : NotifAction) (s : NotifSys) : NotifSys :=
  match a with
  | NotifAction.animateIn nid =>
    { s with notifs := s.notifs.map (fun n =>
        if n.nid == nid then { n with slidIn := true } else n) }
  | NotifAction.autoHide nid =>
    if containsNotif s nid then hideNotification nid s else s
  | NotifAction.removeNode nid =>
    { s with notifs := s.notifs.filter (fun n => n.nid != nid) }

inductive NotifEvent
  | call (msg t : String)
  | clickClose (nid : Nat)
  | fire (i : Nat)

/-- One event of the notification subsystem: a `showNotification` call, a
click on a visible banner's close control, or a scheduled timer firing. -/
def notifStep (s : NotifSys) : NotifEvent → NotifSys
  | NotifEvent.call msg t => showNotification msg t s
  | NotifEvent.clickClose nid =>
    if containsNotif s nid then hideNotification nid s else s
  | NotifEvent.fire i =>
    match s.timers.get? i with
    | some tm => runNotifAction tm.act { s with timers := s.timers.eraseIdx i, now := tm.fireAt }
    | none => s

def notifRun (evs : List NotifEvent) : NotifSys :=
  evs.foldl notifStep notifInit

/-! ## The widget registry (`initializeModals`/`initializeDropdowns`,
lines 41-58), and `Map.get('bookingModal')?.hide()` (lines 300-303) -/

structure ModalElem where
  node : Nat
  id : String
  deriving DecidableEq

structure ModalHandle where
  elem : ModalElem
  shown : Bool := false
  deriving DecidableEq

structure DropdownElem where
  node : Nat
  id : String
  className : String
  deriving DecidableEq

structure DropdownHandle where
  elem : DropdownElem
  deriving DecidableEq

/-- `this.modals.set(modalElement.id, new bootstrap.Modal(modalElement))`
for every `.modal` element, in document order. -/
def initializeModals (els : List ModalElem) : List (String × ModalHandle) :=
  els.foldl (fun m el => jsMapSet m el.id { elem := el, shown := false }) []

/-- `dropdownElement.id || dropdownElement.className`. -/
def dropdownKey (el : DropdownElem) : String :=
  if el.id ≠ "" then el.id else el.className

/-- `this.dropdowns.set(id || className, new bootstrap.Dropdown(el))` for
every `.dropdown-toggle` element, in document order. -/
def initializeDropdowns (els : List DropdownElem) : List (String × DropdownHandle) :=
  els.foldl (fun m el => jsMapSet m (dropdownKey el) { elem := el }) []

/-- `this.modals.get(k)` followed by `.hide()` when present: the handle a
`Map` lookup returns has its modal hidden; the registry keeps its entries. -/
def modalsHide (m : List (String × ModalHandle)) (k : String) :
    List (String × ModalHandle) :=
  match m with
  | [] => []
  | kv :: rest =>
    if kv.1 == k then (kv.1, { kv.2 with shown := false }) :: rest
    else kv :: modalsHide rest k

/-! ## Booking submission (`handleBookingSubmission`, `submitBookingForm`,
lines 145-150 and 283-311) -/

structure ButtonState where
  textContent : String
  disabled : Bool
  deriving DecidableEq

structure BookingState where
  form : Form
  button : ButtonState
  modals : List (String × ModalHandle)
  notifSys : NotifSys
  deriving DecidableEq

def submittingLabel : String := "SUBMITTING..."
def bookingSuccessMsg : String := "Booking request submitted successfully!"

/-- The action scheduled by `setTimeout(..., 2000)` in `submitBookingForm`,
carrying the delay and the captured original button label. -/
structure PendingSubmit where
  delayMs : Nat
  originalText : String
  deriving DecidableEq

/-- The synchronous part of `submitBookingForm` (lines 283-290): capture
the label, show the loading state, schedule the timeout. -/
def submitBookingStart (s : BookingState) : BookingState × PendingSubmit :=
  ({ s with button := { textContent := submittingLabel, disabled := true } },
   { delayMs := 2000, originalText := s.button.textContent })

/-- The form reset `form.reset()`: every control goes back to its default
value. -/
def formReset (form : Form) : Form :=
  form.map (fun g =>
    { g with fields := g.fields.map (fun fl =>
        { fl with core := { fl.core with value := fl.core.defaultValue } }) })

/-- The timeout body of `submitBookingForm` (lines 291-310): restore the
button, show the success notification, hide the `bookingModal` handle if
tracked, and reset the form. -/
def submitBookingFinish (p : PendingSubmit) (s : BookingState) : BookingState :=
  { form := formReset s.form,
    button := { textContent := p.originalText, disabled := false },
    modals := modalsHide s.modals "bookingModal",
    notifSys := showNotification bookingSuccessMsg "success" s.notifSys }

/-- `handleBookingSubmission` (lines 145-150): validate; on success collect
the data and start the simulated submission, otherwise stop with the error
annotations shown. -/
def handleBookingSubmission (today : Nat) (s : BookingState) :
    BookingState × Option (List (String × String) × PendingSubmit) :=
  let r := validateBookingForm today s.form
  if r.1 then
    let st := submitBookingStart { s with form := r.2 }
    (st.1, some (collectFormData r.2, st.2))
  else ({ s with form := r.2 }, none)

/-! ## Newsletter submission (`handleNewsletterSubmission`, lines 330-363) -/

structure NewsForm where
  emailValue : String
  emailDefault : String := ""
  deriving DecidableEq

structure NewsState where
  form : NewsForm
  button : ButtonState
  notifSys : NotifSys
  deriving DecidableEq

def subscribingLabel : String := "Subscribing..."
def newsEmptyMsg : String := "Please enter your email address"
def newsInvalidMsg : String := "Please enter a valid email address"
def newsSuccessMsg : String := "Thank you for subscribing to our newsletter!"

structure PendingNews where
  delayMs : Nat
  originalText : String
  deriving DecidableEq

/-- The synchronous part of `handleNewsletterSubmission`: the empty check,
the email-shape check, and otherwise the loading state plus the scheduled
1.5s timeout. -/
def handleNewsletterSubmission (s : NewsState) : NewsState × Option PendingNews :=
  let email := jsTrim s.form.emailValue
  if email = "" then
    ({ s with notifSys := showNotification newsEmptyMsg "error" s.notifSys }, none)
  else if emailShape email = false then
    ({ s with notifSys := showNotification newsInvalidMsg "error" s.notifSys }, none)
  else
    ({ s with button := { textContent := subscribingLabel, disabled := true } },
     some { delayMs := 1500, originalText := s.button.textContent })

/-- The timeout body (lines 352-362): restore the button, show the success
notification, reset the form. -/
def newsletterFinish (p : PendingNews) (s : NewsState) : NewsState :=
  { form := { s.form with emailValue := s.form.emailDefault },
    button := { textContent := p.originalText, disabled := false },
    notifSys := showNotification newsSuccessMsg "success" s.notifSys }

/-! ## Parallax (`bindParallaxScroll`, lines 79-101)

`ticking` is the closure flag; `pendingFrames` counts callbacks queued via
`requestAnimationFrame` and not yet executed.  A frame event carries the
`window.pageYOffset` read when the callback runs. -/

structure ParallaxState where
  ticking : Bool
  pendingFrames : Nat
  transforms : List (Rat × Rat × Rat)
  deriving DecidableEq

def parallaxInit (n : Nat) : ParallaxState :=
  { ticking := false, pendingFrames := 0, transforms := List.replicate n (0, 0, 0) }

/-- `updateParallax`: set every element's transform to
`translate3d(0, scrolled * -0.5 px, 0)` and clear the flag. -/
def updateParallax (scrolled : Rat) (s : ParallaxState) : ParallaxState :=
  { s with
    transforms := s.transforms.map (fun _ => (0, scrolled * (-(1 : Rat) / 2), 0)),
    ticking := false }

/-- `requestParallaxUpdate`: schedule a frame only when no update is
queued, and mark one queued. -/
def requestParallaxUpdate (s : ParallaxState) : ParallaxState :=
  if s.ticking then s
  else { s with pendingFrames := s.pendingFrames + 1, ticking := true }

inductive ParallaxEvent
  | scroll
  | frame (scrolled : Rat)

/-- A scroll event runs the (passive) listener; a frame event runs one
queued animation-frame callback, reading the current scroll offset. -/
def parallaxStep (s : ParallaxState) : ParallaxEvent → ParallaxState
  | ParallaxEvent.scroll => requestParallaxUpdate s
  | ParallaxEvent.frame sc =>
    if 0 < s.pendingFrames then
      updateParallax sc { s with pendingFrames := s.pendingFrames - 1 }
    else s

def parallaxRun (n : Nat) (evs : List ParallaxEvent) : ParallaxState :=
  evs.foldl parallaxStep (parallaxInit n)

/-! ## The notification markup (`showNotification`, lines 442-449)

The banner's `innerHTML` is assembled by raw template interpolation of the
message.  `textOfMarkup` is the browser's text content of such a fragment
for markup free of entity references: characters between `<` and `>` form
tags, everything else is text.  The template's inter-tag whitespace is
elided; it does not affect the message span, whose content is exactly the
interpolated message. -/

def notifPrefixHTML : String :=
  "<div class=\"experience-notification__content\"><span class=\"experience-notification__message\">"

def notifSuffixHTML : String :=
  "</span><button class=\"experience-notification__close\" type=\"button\" aria-label=\"Close\"><i class=\"bi bi-x-lg\"></i></button></div>"

/-- The interpolated `notification.innerHTML` template literal. -/
def notifInnerHTML (message : String) : String :=
  notifPrefixHTML ++ message ++ notifSuffixHTML

/-- Tag stripping: `true` means the scan is inside `<...>`. -/
def stripTagsAux : Bool → List Char → List Char
  | _, [] => []
  | b, c :: rest =>
    if b then (if c = '>' then stripTagsAux false rest else stripTagsAux true rest)
    else (if c = '<' then stripTagsAux true rest else c :: stripTagsAux false rest)

/-- The tag-scan state after a list of characters. -/
def tagState : Bool → List Char → Bool
  | b, [] => b
  | b, c :: rest =>
    if b then (if c = '>' then tagState false rest else tagState true rest)
    else (if c = '<' then tagState true rest else tagState false rest)

/-- Rendered text content of an HTML fragment without entity references. -/
def textOfMarkup (s : String) : String :=
  String.mk (stripTagsAux false s.data)

/-- The text content the banner displays for a message. -/
def notifTextContent (message : String) : String :=
  textOfMarkup (notifInnerHTML message)

/-! ## Concrete forms used as test inputs

`exTodayKey` is the key of a 2026 midnight, so the 2020 instants below lie
in the past.  `exRangeForm` wraps both datetime inputs in one parent (so
the type selectors resolve to the two distinct inputs); `exPairForm` wraps
two non-datetime required controls in one parent; `exMixedForm` puts a text
input before the page's only datetime input among the same siblings. -/

def exTodayKey : Nat := (parseDatetimeLocal "2026-10-12T00:00").getD 0

def exCheckinCore : FieldCore :=
  { itype := InputType.datetimeLocal
    required := true
    value := "2020-01-02T10:00"
    name := "checkin" }

def exCheckoutCore : FieldCore :=
  { itype := InputType.datetimeLocal
    required := true
    value := "2020-01-01T10:00"
    name := "checkout" }

def exCheckinField : Field := { core := exCheckinCore }

def exCheckoutField : Field := { core := exCheckoutCore }

def exRangeForm : Form := [{ fields := [exCheckinField, exCheckoutField] }]

def exNameField : Field :=
  { core := { required := true, value := "", name := "guestName" } }

def exPhoneCore : FieldCore :=
  { itype := InputType.tel
    required := true
    value := "abc"
    name := "phone" }

def exPhoneField : Field := { core := exPhoneCore }

def exPairForm : Form := [{ fields := [exNameField, exPhoneField] }]

def exNoteField : Field := { core := { value := "x", name := "note" } }

def exLoneDateCore : FieldCore :=
  { itype := InputType.datetimeLocal
    value := "2099-01-01T10:00"
    name := "checkin" }

def exLoneDateField : Field := { core := exLoneDateCore }

def exMixedForm : Form := [{ fields := [exNoteField, exLoneDateField] }]

def exEmailCore : FieldCore :=
  { itype := InputType.email
    required := true
    value := "user@example.com"
    name := "email" }

def exValidForm : Form :=
  [{ fields := [{ core := { required := true, value := "John", name := "guestName" } }] },
   { fields := [{ core := exEmailCore }] }]

def exBookingState : BookingState :=
  { form := exValidForm,
    button := { textContent := "SUBMIT REQUEST", disabled := false },
    modals := [("bookingModal", { elem := { node := 0, id := "bookingModal" }, shown := true })],
    notifSys := notifInit }

def exFailForm : Form :=
  [{ fields := [exNameField] }, { fields := [exPhoneField] }]

def exFailState : BookingState :=
  { form := exFailForm,
    button := { textContent := "SUBMIT REQUEST", disabled := false },
    modals := [],
    notifSys := notifInit }

def exNewsState (v : String) : NewsState :=
  { form := { emailValue := v },
    button := { textContent := "Subscribe", disabled := false },
    notifSys := notifInit }

def exNotifSys : NotifSys :=
  { notifs := [{ nid := 5, message := "hello", ntype := "info", slidIn := true }],
    timers := [{ fireAt := 300, act := NotifAction.removeNode 5 },
               { fireAt := 5000, act := NotifAction.autoHide 5 }],
    now := 200,
    nextId := 6 }

/-! ## List helper lemmas -/

theorem listModify_map {α β : Type} (f : α → α) (h : α → β) (i : Nat) (l : List α)
    (hf : ∀ a, h (f a) = h a) : (listModify f i l).map h = l.map h := by
  induction l generalizing i with
  | nil => cases i <;> rfl
  | cons a as ih =>
    cases i with
    | zero => simp [listModify, hf]
    | succ n => simp [listModify, ih]

theorem get?_listModify_ne {α : Type} (f : α → α) (i j : Nat) (l : List α)
    (hne : i ≠ j) : (listModify f i l).get? j = l.get? j := by
  induction l generalizing i j with
  | nil => cases i <;> rfl
  | cons a as ih =>
    cases i with
    | zero =>
      cases j with
      | zero => exact absurd rfl hne
      | succ m => simp [listModify]
    | succ n =>
      cases j with
      | zero => simp [listModify]
      | succ m =>
        simp only [listModify, List.get?]
        exact ih n m (fun h => hne (by rw [h]))

theorem get?_listModify_self {α : Type} (f : α → α) (i : Nat) (l : List α) :
    (listModify f i l).get? i = (l.get? i).map f := by
  induction l generalizing i with
  | nil => cases i <;> rfl
  | cons a as ih =>
    cases i with
    | zero => simp [listModify]
    | succ n => simpa [listModify] using ih n

theorem listModify_listModify {α : Type} (f g : α → α) (i : Nat) (l : List α) :
    listModify f i (listModify g i l) = listModify (fun x => f (g x)) i l := by
  induction l generalizing i with
  | nil => cases i <;> rfl
  | cons a as ih =>
    cases i with
    | zero => rfl
    | succ n => simp [listModify, ih]

theorem mem_listModify {α : Type} (f : α → α) (i : Nat) (l : List α) (y : α)
    (h : y ∈ listModify f i l) : (∃ x, x ∈ l ∧ y = f x) ∨ y ∈ l := by
  induction l generalizing i with
  | nil => cases i <;> exact absurd h (List.not_mem_nil y)
  | cons a as ih =>
    cases i with
    | zero =>
      rcases List.mem_cons.mp h with rfl | h2
      · exact Or.inl ⟨a, List.mem_cons_self a as, rfl⟩
      · exact Or.inr (List.mem_cons_of_mem a h2)
    | succ n =>
      rcases List.mem_cons.mp h with rfl | h2
      · exact Or.inr (List.mem_cons_self y as)
      · rcases ih n h2 with ⟨x, hx, he⟩ | h3
        · exact Or.inl ⟨x, List.mem_cons_of_mem a hx, he⟩
        · exact Or.inr (List.mem_cons_of_mem a h3)

theorem get?_append_cons {α : Type} (A : List α) (g : α) (B : List α) :
    (A ++ g :: B).get? A.length = some g := by
  induction A with
  | nil => rfl
  | cons a rest ih => simpa using ih

theorem get?_map_fn {α β : Type} (f : α → β) (l : List α) (n : Nat) :
    (l.map f).get? n = (l.get? n).map f := by
  induction l generalizing n with
  | nil => cases n <;> rfl
  | cons a as ih =>
    cases n with
    | zero => rfl
    | succ m => exact ih m

/-! ## Validation only writes error state

The required-field pass and the cross-field check modify the `is-invalid`
classes and the `.invalid-feedback` elements; the `FieldCore` projection of
the form is untouched.  Hence selectors, values and collected data agree
between the form before and after validation. -/

theorem groupCores_clearGroupError (fi : Nat) (g : Group) :
    (clearGroupError fi g).fields.map (fun fl => fl.core) =
      g.fields.map (fun fl => fl.core) := by
  unfold clearGroupError
  exact listModify_map _ _ _ _ (fun a => rfl)

theorem groupCores_showGroupError (fi : Nat) (msg : String) (g : Group) :
    (showGroupError fi msg g).fields.map (fun fl => fl.core) =
      g.fields.map (fun fl => fl.core) := by
  show (listModify (fun fl => { fl with invalidClass := true }) fi
      (clearGroupError fi g).fields).map (fun fl => fl.core) = _
  rw [listModify_map (fun fl => { fl with invalidClass := true })
    (fun fl => fl.core) fi (clearGroupError fi g).fields (fun a => rfl)]
  exact groupCores_clearGroupError fi g

theorem formCores_clearFieldErrorAt (form : Form) (p : Nat × Nat) :
    formCores (clearFieldErrorAt form p) = formCores form := by
  unfold formCores clearFieldErrorAt
  exact listModify_map _ _ _ _ (fun g => groupCores_clearGroupError p.2 g)

theorem formCores_showFieldErrorAt (form : Form) (p : Nat × Nat) (msg : String) :
    formCores (showFieldErrorAt form p msg) = formCores form := by
  unfold formCores showFieldErrorAt
  exact listModify_map _ _ _ _ (fun g => groupCores_showGroupError p.2 msg g)

theorem formCores_validateFieldAt (today : Nat) (form : Form) (p : Nat × Nat) :
    formCores (validateFieldAt today form p).2 = formCores form := by
  cases hf : fieldAt form p with
  | none => simp [validateFieldAt, hf]
  | some fl =>
    cases hm : validateFieldMsg today fl.core with
    | some msg => simp [validateFieldAt, hf, hm, formCores_showFieldErrorAt]
    | none => simp [validateFieldAt, hf, hm, formCores_clearFieldErrorAt]

theorem formCores_validateFold (today : Nat) (ps : List (Nat × Nat)) (b : Bool)
    (form : Form) :
    formCores (ps.foldl (validateStep today) (b, form)).2 = formCores form := by
  induction ps generalizing b form with
  | nil => rfl
  | cons p ps ih =>
    simp only [List.foldl_cons, validateStep]
    rw [ih]
    exact formCores_validateFieldAt today form p

theorem formCores_bookingRequiredPass (today : Nat) (form : Form) :
    formCores (bookingRequiredPass today form).2 = formCores form := by
  unfold bookingRequiredPass
  exact formCores_validateFold today _ true form

theorem formCores_crossCheckDateRange (acc : Bool × Form) :
    formCores (crossCheckDateRange acc).2 = formCores acc.2 := by
  unfold crossCheckDateRange
  cases hci : checkinPos acc.2 with
  | none => cases checkoutPos acc.2 <;> rfl
  | some ci =>
    cases hco : checkoutPos acc.2 with
    | none => rfl
    | some co =>
      dsimp only
      by_cases hv : valueAt acc.2 ci ≠ "" ∧ valueAt acc.2 co ≠ ""
      · rw [if_pos hv]
        by_cases hle : jsDateLe (parseDatetimeLocal (valueAt acc.2 co))
            (parseDatetimeLocal (valueAt acc.2 ci)) = true
        · rw [if_pos hle]
          exact formCores_showFieldErrorAt acc.2 co msgRange
        · rw [if_neg hle]
      · rw [if_neg hv]

theorem formCores_validateBookingForm (today : Nat) (form : Form) :
    formCores (validateBookingForm today form).2 = formCores form := by
  unfold validateBookingForm
  rw [formCores_crossCheckDateRange]
  exact formCores_bookingRequiredPass today form

theorem allCores_validateBookingForm (today : Nat) (form : Form) :
    allCores (validateBookingForm today form).2 = allCores form := by
  unfold allCores
  rw [formCores_validateBookingForm]

/-! ## `jsMapSet`/`mapGet` lemmas -/

theorem mapGet_mapReplace_self {β : Type} (m : List (String × β)) (k : String) (v : β)
    (ha : m.any (fun kv => kv.1 == k) = true) :
    mapGet (m.map (fun kv => if kv.1 == k then (k, v) else kv)) k = some v := by
  induction m with
  | nil => simp at ha
  | cons kv rest ih =>
    simp only [List.any_cons, Bool.or_eq_true] at ha
    by_cases hk : (kv.1 == k) = true
    · simp [mapGet, hk]
    · have hk' : (kv.1 == k) = false := by simpa using hk
      rcases ha with ha | ha
      · exact absurd ha hk
      · simp only [List.map_cons, hk', Bool.false_eq_true, if_neg, not_false_iff,
          mapGet]
        exact ih ha

theorem mapGet_mapReplace_ne {β : Type} (m : List (String × β)) (k : String) (v : β)
    (q : String) (hne : q ≠ k) :
    mapGet (m.map (fun kv => if kv.1 == k then (k, v) else kv)) q = mapGet m q := by
  induction m with
  | nil => rfl
  | cons kv rest ih =>
    by_cases hk : (kv.1 == k) = true
    · have hkeq : kv.1 = k := by simpa using hk
      have hq : (k == q) = false := by
        rw [beq_eq_false_iff_ne]
        exact fun e => hne e.symm
      have hq2 : (kv.1 == q) = false := by rw [hkeq]; exact hq
      simp only [List.map_cons, hk, if_pos, mapGet, hq, hq2, Bool.false_eq_true,
        if_neg, not_false_iff]
      exact ih
    · have hk' : (kv.1 == k) = false := by simpa using hk
      simp only [List.map_cons, hk', Bool.false_eq_true, if_neg, not_false_iff, mapGet]
      by_cases hq3 : (kv.1 == q) = true
      · simp [hq3]
      · have hq3' : (kv.1 == q) = false := by simpa using hq3
        simp only [hq3', Bool.false_eq_true, if_neg, not_false_iff]
        exact ih

theorem mapGet_append_single_ne {β : Type} (m : List (String × β)) (k : String)
    (v : β) (q : String) (hne : q ≠ k) : mapGet (m ++ [(k, v)]) q = mapGet m q := by
  induction m with
  | nil =>
    have hq : (k == q) = false := by
      rw [beq_eq_false_iff_ne]
      exact fun e => hne e.symm
    simp [mapGet, hq]
  | cons kv rest ih =>
    simp only [List.cons_append, mapGet]
    by_cases hq3 : (kv.1 == q) = true
    · simp [hq3]
    · have hq3' : (kv.1 == q) = false := by simpa using hq3
      simp only [hq3', Bool.false_eq_true, if_neg, not_false_iff]
      exact ih

theorem mapGet_append_single_self {β : Type} (m : List (String × β)) (k : String)
    (v : β) (ha : m.any (fun kv => kv.1 == k) = false) :
    mapGet (m ++ [(k, v)]) k = some v := by
  induction m with
  | nil => simp [mapGet]
  | cons kv rest ih =>
    simp only [List.any_cons, Bool.or_eq_false_iff] at ha
    simp only [List.cons_append, mapGet, ha.1, Bool.false_eq_true, if_neg,
      not_false_iff]
    exact ih ha.2

theorem mapGet_jsMapSet_self {β : Type} (m : List (String × β)) (k : String) (v : β) :
    mapGet (jsMapSet m k v) k = some v := by
  unfold jsMapSet
  by_cases ha : m.any (fun kv => kv.1 == k) = true
  · rw [if_pos ha]
    exact mapGet_mapReplace_self m k v ha
  · rw [if_neg ha]
    exact mapGet_append_single_self m k v (Bool.eq_false_iff.mpr ha)

theorem mapGet_jsMapSet_ne {β : Type} (m : List (String × β)) (k : String) (v : β)
    (q : String) (hne : q ≠ k) : mapGet (jsMapSet m k v) q = mapGet m q := by
  unfold jsMapSet
  by_cases ha : m.any (fun kv => kv.1 == k) = true
  · rw [if_pos ha]
    exact mapGet_mapReplace_ne m k v q hne
  · rw [if_neg ha]
    exact mapGet_append_single_ne m k v q hne

theorem mem_jsMapSet {β : Type} (m : List (String × β)) (k : String) (v : β)
    (kv : String × β) (h : kv ∈ jsMapSet m k v) : kv ∈ m ∨ kv = (k, v) := by
  unfold jsMapSet at h
  by_cases ha : m.any (fun x => x.1 == k) = true
  · rw [if_pos ha] at h
    rcases List.mem_map.mp h with ⟨x, hx, hxe⟩
    by_cases hk : (x.1 == k) = true
    · rw [if_pos hk] at hxe
      exact Or.inr hxe.symm
    · rw [if_neg hk] at hxe
      exact Or.inl (hxe ▸ hx)
  · rw [if_neg ha] at h
    rcases List.mem_append.mp h with h | h
    · exact Or.inl h
    · exact Or.inr (List.mem_singleton.mp h)

/-! ## `collectFormData` lemmas -/

theorem mapGet_isSome_collectFold_mono (cs : List FieldCore)
    (data : List (String × String)) (k : String)
    (h : (mapGet data k).isSome = true) :
    (mapGet (cs.foldl collectStep data) k).isSome = true := by
  induction cs generalizing data with
  | nil => exact h
  | cons c rest ih =>
    simp only [List.foldl_cons]
    apply ih
    unfold collectStep
    by_cases hc : c.name ≠ "" ∨ c.id ≠ ""
    · rw [if_pos hc]
      by_cases hk : k = fieldKey c
      · rw [hk, mapGet_jsMapSet_self]
        rfl
      · rw [mapGet_jsMapSet_ne data (fieldKey c) c.value k hk]
        exact h
    · rw [if_neg hc]
      exact h

theorem mapGet_isSome_collectFold (cs : List FieldCore)
    (data : List (String × String)) (c : FieldCore) (hc : c ∈ cs)
    (hkey : c.name ≠ "" ∨ c.id ≠ "") :
    (mapGet (cs.foldl collectStep data) (fieldKey c)).isSome = true := by
  induction cs generalizing data with
  | nil => exact absurd hc (List.not_mem_nil c)
  | cons c0 rest ih =>
    simp only [List.foldl_cons]
    rcases List.mem_cons.mp hc with rfl | hc
    · apply mapGet_isSome_collectFold_mono
      unfold collectStep
      rw [if_pos hkey, mapGet_jsMapSet_self]
      rfl
    · exact ih _ hc

theorem mem_collectFold (cs : List FieldCore) (data : List (String × String))
    (kv : String × String) (h : kv ∈ cs.foldl collectStep data) :
    kv ∈ data ∨ ∃ c, c ∈ cs ∧ (c.name ≠ "" ∨ c.id ≠ "") ∧
      fieldKey c = kv.1 ∧ c.value = kv.2 := by
  induction cs generalizing data with
  | nil => exact Or.inl h
  | cons c0 rest ih =>
    simp only [List.foldl_cons] at h
    rcases ih _ h with h1 | ⟨c, hcm, hckey, hk, hv⟩
    · unfold collectStep at h1
      by_cases hc : c0.name ≠ "" ∨ c0.id ≠ ""
      · rw [if_pos hc] at h1
        rcases mem_jsMapSet _ _ _ _ h1 with h2 | h2
        · exact Or.inl h2
        · exact Or.inr ⟨c0, List.mem_cons_self c0 rest, hc, by rw [h2], by rw [h2]⟩
      · rw [if_neg hc] at h1
        exact Or.inl h1
    · exact Or.inr ⟨c, List.mem_cons_of_mem c0 hcm, hckey, hk, hv⟩

/-! ## Registry lemmas -/

theorem modalsHide_keys (m : List (String × ModalHandle)) (k : String) :
    (modalsHide m k).map Prod.fst = m.map Prod.fst := by
  induction m with
  | nil => rfl
  | cons kv rest ih =>
    unfold modalsHide
    by_cases hk : (kv.1 == k) = true
    · rw [if_pos hk]
      simp
    · rw [if_neg hk]
      simp [ih]

theorem mem_modalsHide (m : List (String × ModalHandle)) (k : String)
    (kv2 : String × ModalHandle) (h : kv2 ∈ modalsHide m k) :
    ∃ kv1, kv1 ∈ m ∧ kv2.1 = kv1.1 ∧ kv2.2.elem = kv1.2.elem := by
  induction m with
  | nil => exact absurd h (List.not_mem_nil kv2)
  | cons kv rest ih =>
    unfold modalsHide at h
    by_cases hk : (kv.1 == k) = true
    · rw [if_pos hk] at h
      rcases List.mem_cons.mp h with rfl | h
      · exact ⟨kv, List.mem_cons_self kv rest, rfl, rfl⟩
      · exact ⟨kv2, List.mem_cons_of_mem kv (by exact h), rfl, rfl⟩
    · rw [if_neg hk] at h
      rcases List.mem_cons.mp h with rfl | h
      · exact ⟨kv2, List.mem_cons_self kv2 rest, rfl, rfl⟩
      · rcases ih h with ⟨kv1, h1, h2, h3⟩
        exact ⟨kv1, List.mem_cons_of_mem kv h1, h2, h3⟩

theorem mapGet_modalsHide (m : List (String × ModalHandle)) (k : String) :
    mapGet (modalsHide m k) k =
      (mapGet m k).map (fun h => { h with shown := false }) := by
  induction m with
  | nil => rfl
  | cons kv rest ih =>
    unfold modalsHide
    by_cases hk : (kv.1 == k) = true
    · rw [if_pos hk]
      simp [mapGet, hk]
    · rw [if_neg hk]
      have hk' : (kv.1 == k) = false := Bool.eq_false_iff.mpr hk
      simp only [mapGet, hk', Bool.false_eq_true, if_neg, not_false_iff]
      exact ih

/-- Folding `jsMapSet` over elements whose keys all differ from `k` leaves
the entry under `k` unchanged. -/
theorem mapGet_setFold_absent {α β : Type} (els : List α) (key : α → String)
    (mk : α → β) (acc : List (String × β)) (k : String)
    (h : ∀ el, el ∈ els → key el ≠ k) :
    mapGet (els.foldl (fun m el => jsMapSet m (key el) (mk el)) acc) k =
      mapGet acc k := by
  induction els generalizing acc with
  | nil => rfl
  | cons e0 rest ih =>
    simp only [List.foldl_cons]
    rw [ih _ (fun el hel => h el (List.mem_cons_of_mem e0 hel))]
    exact mapGet_jsMapSet_ne acc (key e0) (mk e0) k
      (fun e => h e0 (List.mem_cons_self e0 rest) e.symm)

/-- With pairwise-distinct keys, the registry built by folding `jsMapSet`
maps each element's key to that element's handle. -/
theorem mapGet_setFold_mem {α β : Type} (els : List α) (key : α → String)
    (mk : α → β) (acc : List (String × β)) (el : α) (hmem : el ∈ els)
    (hnd : (els.map key).Nodup) :
    mapGet (els.foldl (fun m e => jsMapSet m (key e) (mk e)) acc) (key el) =
      some (mk el) := by
  induction els generalizing acc with
  | nil => exact absurd hmem (List.not_mem_nil el)
  | cons e0 rest ih =>
    simp only [List.map_cons, List.nodup_cons] at hnd
    simp only [List.foldl_cons]
    rcases List.mem_cons.mp hmem with rfl | hmem
    · rw [mapGet_setFold_absent rest key mk _ (key el)
        (fun e he hkey => hnd.1 (hkey ▸ List.mem_map_of_mem key he))]
      exact mapGet_jsMapSet_self acc (key el) (mk el)
    · exact ih _ hmem hnd.2

theorem mem_setFold {α β : Type} (els : List α) (key : α → String) (mk : α → β)
    (acc : List (String × β)) (kv : String × β)
    (h : kv ∈ els.foldl (fun m e => jsMapSet m (key e) (mk e)) acc) :
    kv ∈ acc ∨ ∃ el, el ∈ els ∧ kv = (key el, mk el) := by
  induction els generalizing acc with
  | nil => exact Or.inl h
  | cons e0 rest ih =>
    simp only [List.foldl_cons] at h
    rcases ih _ h with h1 | ⟨el, hel, he⟩
    · rcases mem_jsMapSet _ _ _ _ h1 with h2 | h2
      · exact Or.inl h2
      · exact Or.inr ⟨e0, List.mem_cons_self e0 rest, h2⟩
    · exact Or.inr ⟨el, List.mem_cons_of_mem e0 hel, he⟩

/-! ## Notification lemmas -/

theorem any_filter_bne (l : List Notif) (nid : Nat) :
    (l.filter (fun n => n.nid != nid)).any (fun n => n.nid == nid) = false := by
  induction l with
  | nil => rfl
  | cons n rest ih =>
    by_cases h : (n.nid != nid) = true
    · have h2 : (n.nid == nid) = false := by simpa [bne] using h
      simp [List.filter_cons, h, h2, ih]
    · have h' : (n.nid != nid) = false := Bool.eq_false_iff.mpr h
      simp [List.filter_cons, h', ih]

theorem notifStep_length_le (s : NotifSys) (e : NotifEvent)
    (h : s.notifs.length ≤ 1) : (notifStep s e).notifs.length ≤ 1 := by
  cases e with
  | call msg t => simp [notifStep, showNotification]
  | clickClose nid =>
    by_cases hc : containsNotif s nid = true
    · simpa [notifStep, hc, hideNotification] using h
    · simpa [notifStep, hc] using h
  | fire i =>
    cases ht : s.timers[i]? with
    | none => simpa [notifStep, ht] using h
    | some tm =>
      cases ha : tm.act with
      | animateIn nid => simpa [notifStep, ht, ha, runNotifAction] using h
      | autoHide nid =>
        by_cases hc : (s.notifs.any (fun n => n.nid == nid)) = true
        · simpa [notifStep, ht, ha, runNotifAction, containsNotif, hc,
            hideNotification] using h
        · simpa [notifStep, ht, ha, runNotifAction, containsNotif, hc] using h
      | removeNode nid =>
        simp only [notifStep, List.get?_eq_getElem?, ht, ha, runNotifAction]
        exact le_trans (List.length_filter_le _ _) h

theorem notifFold_length_le (evs : List NotifEvent) (s : NotifSys)
    (h : s.notifs.length ≤ 1) : (evs.foldl notifStep s).notifs.length ≤ 1 := by
  induction evs generalizing s with
  | nil => exact h
  | cons e rest ih => exact ih _ (notifStep_length_le s e h)

/-! ## Parallax lemmas -/

theorem parallaxStep_inv (s : ParallaxState) (e : ParallaxEvent)
    (h : s.pendingFrames ≤ 1 ∧ (s.ticking = true ↔ s.pendingFrames = 1)) :
    (parallaxStep s e).pendingFrames ≤ 1 ∧
      ((parallaxStep s e).ticking = true ↔ (parallaxStep s e).pendingFrames = 1) := by
  cases e with
  | scroll =>
    by_cases ht : s.ticking = true
    · simpa [parallaxStep, requestParallaxUpdate, ht] using h
    · have hp : s.pendingFrames = 0 := by
        rcases Nat.lt_or_ge s.pendingFrames 1 with h1 | h1
        · omega
        · exact absurd (h.2.mpr (by omega)) ht
      simp [parallaxStep, requestParallaxUpdate, ht, hp]
  | frame sc =>
    by_cases hp : 0 < s.pendingFrames
    · simp only [parallaxStep, hp, if_pos, updateParallax]
      constructor
      · omega
      · constructor
        · intro hf
          exact absurd hf (by simp)
        · intro hf
          omega
    · simpa [parallaxStep, hp] using h

theorem parallaxFold_inv (evs : List ParallaxEvent) (s : ParallaxState)
    (h : s.pendingFrames ≤ 1 ∧ (s.ticking = true ↔ s.pendingFrames = 1)) :
    (evs.foldl parallaxStep s).pendingFrames ≤ 1 ∧
      ((evs.foldl parallaxStep s).ticking = true ↔
        (evs.foldl parallaxStep s).pendingFrames = 1) := by
  induction evs generalizing s with
  | nil => exact h
  | cons e rest ih => exact ih _ (parallaxStep_inv s e h)

/-! ## Characterizing the required-field pass on one-control-per-parent forms

When every parent wraps exactly one control — the usual form markup — each
loop iteration touches only its own group, so the whole pass acts
groupwise. -/

theorem validateFieldAt_cons (today : Nat) (g : Group) (form : Form) (gi fi : Nat) :
    validateFieldAt today (g :: form) (gi + 1, fi) =
      ((validateFieldAt today form (gi, fi)).1,
        g :: (validateFieldAt today form (gi, fi)).2) := by
  cases hf : fieldAt form (gi, fi) with
  | none =>
    have hf2 : fieldAt (g :: form) (gi + 1, fi) = none := by
      simpa [fieldAt] using hf
    simp [validateFieldAt, hf, hf2]
  | some fl =>
    have hf2 : fieldAt (g :: form) (gi + 1, fi) = some fl := by
      simpa [fieldAt] using hf
    cases hm : validateFieldMsg today fl.core with
    | some msg =>
      simp [validateFieldAt, hf, hf2, hm, showFieldErrorAt, listModify]
    | none =>
      simp [validateFieldAt, hf, hf2, hm, clearFieldErrorAt, listModify]

theorem foldl_validateStep_shift (today : Nat) (ps : List (Nat × Nat)) (b : Bool)
    (g : Group) (form : Form) :
    (ps.map (fun p => (p.1 + 1, p.2))).foldl (validateStep today) (b, g :: form) =
      ((ps.foldl (validateStep today) (b, form)).1,
        g :: (ps.foldl (validateStep today) (b, form)).2) := by
  induction ps generalizing b form with
  | nil => rfl
  | cons p rest ih =>
    simp only [List.map_cons, List.foldl_cons]
    have hstep : validateStep today (b, g :: form) (p.1 + 1, p.2) =
        ((validateStep today (b, form) p).1, g :: (validateStep today (b, form) p).2) := by
      unfold validateStep
      rw [validateFieldAt_cons]
    rw [hstep]
    exact ih _ _

theorem foldl_validateStep_bool (today : Nat) (ps : List (Nat × Nat)) (b : Bool)
    (form : Form) :
    ps.foldl (validateStep today) (b, form) =
      (b && (ps.foldl (validateStep today) (true, form)).1,
        (ps.foldl (validateStep today) (true, form)).2) := by
  induction ps generalizing b form with
  | nil => simp
  | cons p rest ih =>
    simp only [List.foldl_cons, validateStep]
    rw [ih (b && (validateFieldAt today form p).1) (validateFieldAt today form p).2,
      ih (true && (validateFieldAt today form p).1) (validateFieldAt today form p).2]
    simp [Bool.and_assoc]

theorem filterMap_required_shift (l : List ((Nat × Nat) × FieldCore)) :
    (l.map (fun pr => ((pr.1.1 + 1, pr.1.2), pr.2))).filterMap
        (fun pr => if pr.2.required = true then some pr.1 else none) =
      (l.filterMap (fun pr => if pr.2.required = true then some pr.1 else none)).map
        (fun p => (p.1 + 1, p.2)) := by
  induction l with
  | nil => rfl
  | cons pr rest ih =>
    by_cases hr : pr.2.required = true
    · simp only [List.map_cons, List.filterMap_cons, hr, if_pos]
      simp [ih]
    · simp only [List.map_cons, List.filterMap_cons, hr, if_neg, not_false_iff]
      simp [ih]

theorem requiredPositions_cons_singleton (g : Group) (form : Form) (fl : Field)
    (hg : g.fields = [fl]) :
    requiredPositions (g :: form) =
      (if fl.core.required = true then [((0 : Nat), (0 : Nat))] else []) ++
        (requiredPositions form).map (fun p => (p.1 + 1, p.2)) := by
  unfold requiredPositions
  have h1 : formCores (g :: form) = [fl.core] :: formCores form := by
    simp [formCores, hg]
  rw [h1]
  have h2 : coresPositions ([fl.core] :: formCores form) =
      [(((0 : Nat), (0 : Nat)), fl.core)] ++
        (coresPositions (formCores form)).map
          (fun pr => ((pr.1.1 + 1, pr.1.2), pr.2)) := by
    simp [coresPositions, List.enum, List.enumFrom]
  rw [h2, List.filterMap_append, filterMap_required_shift]
  congr 1
  cases hr : fl.core.required <;>
    simp [List.filterMap_cons, hr]

theorem bookingRequiredPass_singleton (today : Nat) (form : Form)
    (h : ∀ g, g ∈ form → ∃ fl, g.fields = [fl]) :
    bookingRequiredPass today form =
      (form.all (passGroupOk today), form.map (passGroup today)) := by
  unfold bookingRequiredPass
  induction form with
  | nil => rfl
  | cons g rest ih =>
    rcases h g (List.mem_cons_self g rest) with ⟨fl, hg⟩
    rw [requiredPositions_cons_singleton g rest fl hg]
    rw [List.foldl_append]
    have hrest := ih (fun g2 hg2 => h g2 (List.mem_cons_of_mem g hg2))
    cases hr : fl.core.required with
    | false =>
      simp only [Bool.false_eq_true, if_neg, not_false_iff, List.foldl_nil]
      rw [foldl_validateStep_shift, hrest]
      simp [List.all_cons, List.map_cons, passGroupOk, passGroup, hg, hr]
    | true =>
      simp only [if_pos, List.foldl_cons, List.foldl_nil]
      have hfield : fieldAt (g :: rest) (0, 0) = some fl := by
        simp [fieldAt, hg]
      cases hm : validateFieldMsg today fl.core with
      | some msg =>
        have hstep : validateStep today (true, g :: rest) (0, 0) =
            (false, showGroupError 0 msg g :: rest) := by
          simp [validateStep, validateFieldAt, hfield, hm, showFieldErrorAt,
            listModify, -Prod.mk_zero_zero]
        rw [hstep, foldl_validateStep_shift,
          foldl_validateStep_bool today _ false, hrest]
        simp [List.all_cons, List.map_cons, passGroupOk, passGroup, hg, hr, hm]
      | none =>
        have hstep : validateStep today (true, g :: rest) (0, 0) =
            (true, clearGroupError 0 g :: rest) := by
          simp [validateStep, validateFieldAt, hfield, hm, clearFieldErrorAt,
            listModify, -Prod.mk_zero_zero]
        rw [hstep, foldl_validateStep_shift, hrest]
        simp [List.all_cons, List.map_cons, passGroupOk, passGroup, hg, hr, hm]

/-! ## Case analysis of the cross-field date-range check -/

theorem crossCheck_fires (b : Bool) (form : Form) (ci co : Nat × Nat)
    (hci : checkinPos form = some ci) (hco : checkoutPos form = some co)
    (hvi : valueAt form ci ≠ "") (hvo : valueAt form co ≠ "")
    (hle : jsDateLe (parseDatetimeLocal (valueAt form co))
      (parseDatetimeLocal (valueAt form ci)) = true) :
    crossCheckDateRange (b, form) = (false, showFieldErrorAt form co msgRange) := by
  unfold crossCheckDateRange
  rw [show (b, form).2 = form from rfl, hci, hco]
  dsimp only
  rw [if_pos ⟨hvi, hvo⟩, if_pos hle]

theorem crossCheck_skips_le (b : Bool) (form : Form) (ci co : Nat × Nat)
    (hci : checkinPos form = some ci) (hco : checkoutPos form = some co)
    (hle : jsDateLe (parseDatetimeLocal (valueAt form co))
      (parseDatetimeLocal (valueAt form ci)) = false) :
    crossCheckDateRange (b, form) = (b, form) := by
  unfold crossCheckDateRange
  rw [show (b, form).2 = form from rfl, hci, hco]
  dsimp only
  by_cases hv : valueAt form ci ≠ "" ∧ valueAt form co ≠ ""
  · rw [if_pos hv, if_neg (by simp [hle])]
  · rw [if_neg hv]

theorem crossCheck_skips_empty (b : Bool) (form : Form) (ci co : Nat × Nat)
    (hci : checkinPos form = some ci) (hco : checkoutPos form = some co)
    (hv : ¬(valueAt form ci ≠ "" ∧ valueAt form co ≠ "")) :
    crossCheckDateRange (b, form) = (b, form) := by
  unfold crossCheckDateRange
  rw [show (b, form).2 = form from rfl, hci, hco]
  dsimp only
  rw [if_neg hv]

theorem crossCheck_skips_no_checkin (b : Bool) (form : Form)
    (hci : checkinPos form = none) :
    crossCheckDateRange (b, form) = (b, form) := by
  unfold crossCheckDateRange
  rw [show (b, form).2 = form from rfl, hci]

theorem crossCheck_skips_no_checkout (b : Bool) (form : Form)
    (hco : checkoutPos form = none) :
    crossCheckDateRange (b, form) = (b, form) := by
  unfold crossCheckDateRange
  rw [show (b, form).2 = form from rfl, hco]
  cases checkinPos form <;> rfl

theorem crossCheck_cases (b : Bool) (form : Form) :
    crossCheckDateRange (b, form) = (b, form) ∨
    ∃ co, checkoutPos form = some co ∧
      crossCheckDateRange (b, form) = (false, showFieldErrorAt form co msgRange) := by
  cases hci : checkinPos form with
  | none => exact Or.inl (crossCheck_skips_no_checkin b form hci)
  | some ci =>
    cases hco : checkoutPos form with
    | none => exact Or.inl (crossCheck_skips_no_checkout b form hco)
    | some co =>
      by_cases hv : valueAt form ci ≠ "" ∧ valueAt form co ≠ ""
      · cases hle : jsDateLe (parseDatetimeLocal (valueAt form co))
            (parseDatetimeLocal (valueAt form ci)) with
        | false => exact Or.inl (crossCheck_skips_le b form ci co hci hco hle)
        | true =>
          exact Or.inr ⟨co, rfl,
            crossCheck_fires b form ci co hci hco hv.1 hv.2 hle⟩
      · exact Or.inl (crossCheck_skips_empty b form ci co hci hco hv)

/-! ## `datetimeSel` on appended and datetime-free DOM segments -/

theorem datetimeSel_cons (ofType : List FieldCore → Nat → Bool)
    (cs : List FieldCore) (rest : List (List FieldCore)) :
    datetimeSel ofType (cs :: rest) =
      cs.enum.filterMap (fun pr =>
        if pr.2.tag == Tag.input && pr.2.itype == InputType.datetimeLocal &&
            ofType cs pr.1
        then some ((0 : Nat), pr.1) else none) ++
      (datetimeSel ofType rest).map (fun p => (p.1 + 1, p.2)) := rfl

theorem datetimeSel_append (ofType : List FieldCore → Nat → Bool)
    (xs ys : List (List FieldCore)) :
    datetimeSel ofType (xs ++ ys) =
      datetimeSel ofType xs ++
        (datetimeSel ofType ys).map (fun p => (p.1 + xs.length, p.2)) := by
  induction xs with
  | nil => simp [datetimeSel]
  | cons cs rest ih =>
    rw [List.cons_append, datetimeSel_cons, datetimeSel_cons, ih,
      List.map_append, List.map_map, List.append_assoc]
    have hfun : ((fun p : Nat × Nat => (p.1 + 1, p.2)) ∘
        (fun p : Nat × Nat => (p.1 + rest.length, p.2))) =
        (fun p : Nat × Nat => (p.1 + (cs :: rest).length, p.2)) := by
      funext p
      simp only [Function.comp_apply, List.length_cons]
      rw [Nat.add_assoc]
    rw [hfun]

theorem datetimeSel_nil_of_no_datetime (ofType : List FieldCore → Nat → Bool)
    (css : List (List FieldCore))
    (h : ∀ cs, cs ∈ css → ∀ c, c ∈ cs →
      ¬(c.tag = Tag.input ∧ c.itype = InputType.datetimeLocal)) :
    datetimeSel ofType css = [] := by
  induction css with
  | nil => rfl
  | cons cs rest ih =>
    have hseg : cs.enum.filterMap (fun pr =>
        if pr.2.tag == Tag.input && pr.2.itype == InputType.datetimeLocal &&
            ofType cs pr.1
        then some ((0 : Nat), pr.1) else none) = [] := by
      rw [List.filterMap_eq_nil_iff]
      rintro ⟨i, c⟩ hmem
      have hc : c ∈ cs := by
        have h2 := List.mk_mem_enum_iff_getElem?.mp hmem
        exact List.getElem?_mem h2
      have hnd := h cs (List.mem_cons_self cs rest) c hc
      have hfalse : (c.tag == Tag.input && c.itype == InputType.datetimeLocal &&
          ofType cs i) = false := by
        by_cases ht : c.tag = Tag.input
        · have hi : (c.itype == InputType.datetimeLocal) = false := by
            rw [beq_eq_false_iff_ne]
            exact fun hit => hnd ⟨ht, hit⟩
          simp [hi]
        · have ht2 : (c.tag == Tag.input) = false := by
            rw [beq_eq_false_iff_ne]
            exact ht
          simp [ht2]
      simp [hfalse]
    rw [datetimeSel_cons, hseg, List.nil_append,
      ih (fun cs2 hcs2 => h cs2 (List.mem_cons_of_mem cs hcs2))]
    rfl

/-! ## Values and selectors only depend on the `FieldCore` projection -/

theorem coreAt_formCores (form : Form) (p : Nat × Nat) :
    coreAt form p = ((formCores form).get? p.1).bind (fun cs => cs.get? p.2) := by
  unfold coreAt fieldAt formCores
  cases hg : form[p.1]? with
  | none => simp [List.getElem?_map, hg]
  | some g => simp [List.getElem?_map, hg]

theorem coreAt_eq_of_formCores_eq (f1 f2 : Form) (p : Nat × Nat)
    (h : formCores f1 = formCores f2) : coreAt f1 p = coreAt f2 p := by
  rw [coreAt_formCores, coreAt_formCores, h]

theorem valueAt_eq_of_formCores_eq (f1 f2 : Form) (p : Nat × Nat)
    (h : formCores f1 = formCores f2) : valueAt f1 p = valueAt f2 p := by
  unfold valueAt
  rw [coreAt_eq_of_formCores_eq f1 f2 p h]

theorem checkinPos_eq_of_formCores_eq (f1 f2 : Form)
    (h : formCores f1 = formCores f2) : checkinPos f1 = checkinPos f2 := by
  unfold checkinPos
  rw [h]

theorem checkoutPos_eq_of_formCores_eq (f1 f2 : Form)
    (h : formCores f1 = formCores f2) : checkoutPos f1 = checkoutPos f2 := by
  unfold checkoutPos
  rw [h]

/-! ## `formReset` -/

theorem allCores_formReset (form : Form) :
    allCores (formReset form) =
      (allCores form).map (fun c => { c with value := c.defaultValue }) := by
  unfold allCores formCores formReset
  induction form with
  | nil => rfl
  | cons g rest ih =>
    simp only [List.map_cons, List.flatten_cons, List.map_append]
    rw [ih]
    congr 1
    rw [List.map_map, List.map_map]
    rfl

/-! ## Tag stripping -/

theorem stripTagsAux_append (b : Bool) (xs ys : List Char) :
    stripTagsAux b (xs ++ ys) =
      stripTagsAux b xs ++ stripTagsAux (tagState b xs) ys := by
  induction xs generalizing b with
  | nil => rfl
  | cons c rest ih =>
    cases b with
    | true =>
      by_cases hc : c = '>'
      · simp [stripTagsAux, tagState, hc, ih]
      · simp [stripTagsAux, tagState, hc, ih]
    | false =>
      by_cases hc : c = '<'
      · simp [stripTagsAux, tagState, hc, ih]
      · simp [stripTagsAux, tagState, hc, ih]

theorem tagState_append (b : Bool) (xs ys : List Char) :
    tagState b (xs ++ ys) = tagState (tagState b xs) ys := by
  induction xs generalizing b with
  | nil => rfl
  | cons c rest ih =>
    cases b with
    | true =>
      by_cases hc : c = '>'
      · simp [tagState, hc, ih]
      · simp [tagState, hc, ih]
    | false =>
      by_cases hc : c = '<'
      · simp [tagState, hc, ih]
      · simp [tagState, hc, ih]

theorem stripTagsAux_no_tag (cs : List Char) (h : ∀ c ∈ cs, c ≠ '<') :
    stripTagsAux false cs = cs ∧ tagState false cs = false := by
  induction cs with
  | nil => exact ⟨rfl, rfl⟩
  | cons c rest ih =>
    have hc : c ≠ '<' := h c (List.mem_cons_self c rest)
    have ihr := ih (fun c2 h2 => h c2 (List.mem_cons_of_mem c h2))
    constructor
    · simp [stripTagsAux, hc, ihr.1]
    · simp [tagState, hc, ihr.2]

theorem notifTextContent_plain (message : String)
    (h : ∀ c ∈ message.data, c ≠ '<') : notifTextContent message = message := by
  unfold notifTextContent textOfMarkup notifInnerHTML
  rw [String.data_append, String.data_append, stripTagsAux_append,
    stripTagsAux_append, tagState_append]
  have hpre1 : stripTagsAux false notifPrefixHTML.data = [] := by decide
  have hpre2 : tagState false notifPrefixHTML.data = false := by decide
  have hsuf : stripTagsAux false notifSuffixHTML.data = [] := by decide
  have hmsg := stripTagsAux_no_tag message.data h
  rw [hpre1, hpre2, hmsg.1, hmsg.2, hsuf, List.append_nil, List.nil_append]

/-! # The claims -/

/-- Claim C6: for every non-empty phone field value, validation fails with
`InvalidFormat` if and only if the value, after removing the formatting
characters, does not consist of an optional leading plus followed by 1 to
16 digits whose first digit is not zero; an empty non-required phone field
passes. -/
theorem c6_phone_rule (today : Nat) (f : FieldCore)
    (htel : f.itype = InputType.tel) (hreq : f.required = false) :
    (jsTrim f.value ≠ "" →
      (((validateFieldMsg today f).isSome = true) ↔
        phoneShape (stripPhone (jsTrim f.value)) = false) ∧
      (phoneShape (stripPhone (jsTrim f.value)) = false →
        validateFieldMsg today f = some msgPhone)) ∧
    (jsTrim f.value = "" → validateFieldMsg today f = none) := by
  constructor
  · intro hne
    by_cases hp : phoneShape (stripPhone (jsTrim f.value)) = false
    · constructor
      · simp [validateFieldMsg, htel, hreq, hne, hp]
      · intro _
        simp [validateFieldMsg, htel, hreq, hne, hp]
    · constructor
      · simp [validateFieldMsg, htel, hreq, hne, hp]
      · intro hp2
        exact absurd hp2 hp
  · intro he
    simp [validateFieldMsg, htel, hreq, he]

/-- Witness for C6 at concrete inputs: the stripped form of `"abc"` does
not match the shape, so a non-required tel field holding it fails with the
phone message; `"+14155551234"` matches, so it passes; the empty value
passes. -/
theorem c6_phone_rule_witness :
    validateFieldMsg 0 { itype := InputType.tel, value := "abc" } = some msgPhone ∧
    (validateFieldMsg 0 { itype := InputType.tel, value := "+14155551234" }).isSome
      = false ∧
    validateFieldMsg 0 { itype := InputType.tel, value := "" } = none := by
  refine ⟨?_, ?_, ?_⟩
  · exact ((c6_phone_rule 0 { itype := InputType.tel, value := "abc" } rfl rfl).1
      (by decide)).2 (by decide)
  · have h := ((c6_phone_rule 0 { itype := InputType.tel, value := "+14155551234" }
      rfl rfl).1 (by decide)).1
    by_cases hs : (validateFieldMsg 0
        { itype := InputType.tel, value := "+14155551234" }).isSome = true
    · exact absurd (h.mp hs) (by decide)
    · simpa using hs
  · exact (c6_phone_rule 0 { itype := InputType.tel, value := "" } rfl rfl).2
      (by decide)

/-- Claim C10: the banner's markup interpolates the message raw
(`notifInnerHTML` is literally prefix ++ message ++ suffix), so the
displayed text equals the message for markup-free messages but differs for
messages containing markup characters, which instead restructure the
fragment ("<b>important</b>" renders as "important"). -/
theorem c10_notification_message :
    (∀ message : String, (∀ c ∈ message.data, c ≠ '<' ∧ c ≠ '&') →
      notifTextContent message = message) ∧
    (∀ message : String,
      notifInnerHTML message = notifPrefixHTML ++ message ++ notifSuffixHTML) ∧
    notifTextContent "<b>important</b>" = "important" ∧
    ("important" : String) ≠ "<b>important</b>" := by
  refine ⟨?_, fun _ => rfl, by decide, by decide⟩
  intro message h
  exact notifTextContent_plain message (fun c hc => (h c hc).1)

/-- Witness for C10: a plain message is displayed verbatim. -/
theorem c10_notification_message_witness :
    notifTextContent "Booking request submitted successfully!" =
      "Booking request submitted successfully!" :=
  c10_notification_message.1 "Booking request submitted successfully!" (by decide)

/-- Claim C5: after the animation-frame update for scroll offset `S` runs,
every parallax image's transform is the 3-axis translation
`(0, S * -0.5, 0)`; a scroll event schedules an update only when the
ticking flag is clear, setting the flag, and the update clears it; under
any event sequence at most one recomputation is pending, the flag being
set exactly when one is. -/
theorem c5_parallax_contract (s : ParallaxState) (sc : Rat) (n : Nat)
    (evs : List ParallaxEvent) (hp : 0 < s.pendingFrames) :
    ((parallaxStep s (ParallaxEvent.frame sc)).transforms =
      List.replicate s.transforms.length (0, sc * (-(1 : Rat) / 2), 0)) ∧
    ((parallaxStep s (ParallaxEvent.frame sc)).ticking = false) ∧
    (s.ticking = true → parallaxStep s ParallaxEvent.scroll = s) ∧
    (s.ticking = false → parallaxStep s ParallaxEvent.scroll =
      { s with pendingFrames := s.pendingFrames + 1, ticking := true }) ∧
    ((parallaxRun n evs).pendingFrames ≤ 1 ∧
      ((parallaxRun n evs).ticking = true ↔ (parallaxRun n evs).pendingFrames = 1)) := by
  refine ⟨?_, ?_, ?_, ?_, ?_⟩
  · simp [parallaxStep, hp, updateParallax, List.map_const']
  · simp [parallaxStep, hp, updateParallax]
  · intro ht
    simp [parallaxStep, requestParallaxUpdate, ht]
  · intro ht
    simp [parallaxStep, requestParallaxUpdate, ht]
  · exact parallaxFold_inv evs (parallaxInit n)
      ⟨by simp [parallaxInit], by simp [parallaxInit]⟩

/-- Witness for C5: one queued frame at offset 10 yields the translation
`(0, -5, 0)` on the single image, and a scroll after initialization leaves
at most one pending recomputation. -/
theorem c5_parallax_contract_witness :
    (parallaxStep ⟨true, 1, [((0 : Rat), (0 : Rat), (0 : Rat))]⟩
      (ParallaxEvent.frame 10)).transforms =
      List.replicate 1 (0, 10 * (-(1 : Rat) / 2), 0) ∧
    (parallaxRun 1 [ParallaxEvent.scroll]).pendingFrames ≤ 1 := by
  have h := c5_parallax_contract ⟨true, 1, [((0 : Rat), (0 : Rat), (0 : Rat))]⟩
    10 1 [ParallaxEvent.scroll] (by decide)
  exact ⟨h.1, h.2.2.2.2.1⟩

/-- Claim C4: under any sequence of notification events at most one
notification element is in the page; two calls in quick succession leave
exactly one banner showing the second message; a dismissal (close click, or
the auto-hide timer firing while the banner is present) starts the exit
slide and schedules the removal 300ms later, and firing a removal timer
leaves the node out of the page. -/
theorem c4_notification_lifecycle (evs : List NotifEvent) (s : NotifSys)
    (m1 t1 m2 t2 : String) (nid tf i j ta : Nat)
    (hc : containsNotif s nid = true)
    (hrm : s.timers.get? i = some { fireAt := tf, act := NotifAction.removeNode nid })
    (hah : s.timers.get? j = some { fireAt := ta, act := NotifAction.autoHide nid }) :
    ((notifRun evs).notifs.length ≤ 1) ∧
    ((notifStep (notifStep s (NotifEvent.call m1 t1))
        (NotifEvent.call m2 t2)).notifs.length = 1 ∧
      ∀ n ∈ (notifStep (notifStep s (NotifEvent.call m1 t1))
        (NotifEvent.call m2 t2)).notifs, n.message = m2 ∧ n.ntype = t2) ∧
    (({ fireAt := s.now + 300, act := NotifAction.removeNode nid } : NotifTimer) ∈
        (notifStep s (NotifEvent.clickClose nid)).timers ∧
      ∀ n ∈ (notifStep s (NotifEvent.clickClose nid)).notifs,
        n.nid = nid → n.slidIn = false) ∧
    (containsNotif (notifStep s (NotifEvent.fire i)) nid = false) ∧
    (({ fireAt := ta + 300, act := NotifAction.removeNode nid } : NotifTimer) ∈
        (notifStep s (NotifEvent.fire j)).timers) := by
  refine ⟨?_, ⟨?_, ?_⟩, ⟨?_, ?_⟩, ?_, ?_⟩
  · exact notifFold_length_le evs notifInit (by simp [notifInit])
  · simp [notifStep, showNotification]
  · intro n hn
    simp only [notifStep, showNotification, List.mem_singleton] at hn
    rw [hn]
    exact ⟨rfl, rfl⟩
  · simp [notifStep, hc, hideNotification]
  · intro n hn hnid
    simp only [notifStep, hc, if_pos, hideNotification] at hn
    rcases List.mem_map.mp hn with ⟨a, ha, hae⟩
    by_cases hk : (a.nid == nid) = true
    · rw [if_pos hk] at hae
      rw [← hae]
    · rw [if_neg hk] at hae
      have : a.nid = nid := hae ▸ hnid
      exact absurd (by simpa using this) hk
  · simp only [notifStep]
    rw [hrm]
    simp only [runNotifAction, containsNotif]
    exact any_filter_bne s.notifs nid
  · simp only [notifStep]
    rw [hah]
    simp only [runNotifAction]
    have hcin : containsNotif
        { s with timers := s.timers.eraseIdx j, now := ta } nid = true := hc
    rw [if_pos hcin]
    simp [hideNotification]

/-- Witness for C4 at a concrete notification state holding one visible
banner, its removal timer and its auto-hide timer. -/
theorem c4_notification_lifecycle_witness :
    containsNotif (notifStep exNotifSys (NotifEvent.fire 0)) 5 = false ∧
    (({ fireAt := 5300, act := NotifAction.removeNode 5 } : NotifTimer) ∈
      (notifStep exNotifSys (NotifEvent.fire 1)).timers) ∧
    (notifStep (notifStep exNotifSys (NotifEvent.call "a" "info"))
      (NotifEvent.call "b" "success")).notifs.length = 1 := by
  have h := c4_notification_lifecycle [] exNotifSys "a" "info" "b" "success"
    5 300 0 1 5000 (by decide) (by decide) (by decide)
  exact ⟨h.2.2.2.1, h.2.2.2.2, h.2.1.1⟩

/-- Claim C7: on newsletter submit exactly one of three outcomes occurs —
empty trimmed email: error notification and abort with no other state
change; non-matching email: error notification and abort; matching email:
the submit control is disabled with the pending label and a 1.5s action is
scheduled which restores the control, shows the success notification and
resets the form. -/
theorem c7_newsletter_outcomes (s : NewsState) :
    (jsTrim s.form.emailValue = "" →
      handleNewsletterSubmission s =
        ({ s with notifSys := showNotification newsEmptyMsg "error" s.notifSys },
          none)) ∧
    (jsTrim s.form.emailValue ≠ "" →
      emailShape (jsTrim s.form.emailValue) = false →
      handleNewsletterSubmission s =
        ({ s with notifSys := showNotification newsInvalidMsg "error" s.notifSys },
          none)) ∧
    (emailShape (jsTrim s.form.emailValue) = true →
      (handleNewsletterSubmission s =
        ({ s with button := { textContent := subscribingLabel, disabled := true } },
          some { delayMs := 1500, originalText := s.button.textContent }) ∧
      (s.button.disabled = false →
        newsletterFinish { delayMs := 1500, originalText := s.button.textContent }
          { s with button := { textContent := subscribingLabel, disabled := true } } =
        { form := { s.form with emailValue := s.form.emailDefault },
          button := s.button,
          notifSys := showNotification newsSuccessMsg "success" s.notifSys }))) := by
  refine ⟨?_, ?_, ?_⟩
  · intro he
    simp [handleNewsletterSubmission, he]
  · intro hne hshape
    simp [handleNewsletterSubmission, hne, hshape]
  · intro hshape
    have hne : jsTrim s.form.emailValue ≠ "" := by
      intro he
      rw [he] at hshape
      exact absurd hshape (by decide)
    constructor
    · simp [handleNewsletterSubmission, hne, hshape]
    · intro hdis
      have hbtn : ({ textContent := s.button.textContent, disabled := false } :
          ButtonState) = s.button := by
        rw [← hdis]

      simp only [newsletterFinish]
      rw [hbtn]

/-- Witness for C7: the three outcomes at concrete newsletter states. -/
theorem c7_newsletter_outcomes_witness :
    handleNewsletterSubmission (exNewsState "  ") =
      ({ exNewsState "  " with
          notifSys := showNotification newsEmptyMsg "error" notifInit }, none) ∧
    handleNewsletterSubmission (exNewsState "nope") =
      ({ exNewsState "nope" with
          notifSys := showNotification newsInvalidMsg "error" notifInit }, none) ∧
    handleNewsletterSubmission (exNewsState "user@example.com") =
      ({ exNewsState "user@example.com" with
          button := { textContent := subscribingLabel, disabled := true } },
        some { delayMs := 1500, originalText := "Subscribe" }) := by
  refine ⟨?_, ?_, ?_⟩
  · exact (c7_newsletter_outcomes (exNewsState "  ")).1 (by decide)
  · exact (c7_newsletter_outcomes (exNewsState "nope")).2.1 (by decide) (by decide)
  · exact ((c7_newsletter_outcomes (exNewsState "user@example.com")).2.2
      (by decide)).1

/-- Counterexample to C8 as stated: two modal elements without an id share
the key `""`, so the registry keeps only the later element's handle — it
does not hold a widget handle for every modal element discovered. -/
theorem c8_counterexample :
    initializeModals [{ node := 0, id := "" }, { node := 1, id := "" }] =
      [("", { elem := { node := 1, id := "" }, shown := false })] ∧
    (∀ kv ∈ initializeModals [{ node := 0, id := "" }, { node := 1, id := "" }],
      kv.2.elem ≠ ({ node := 0, id := "" } : ModalElem)) := by decide

/-- Claim C8 (amended): provided the discovered elements' registry keys
(modal ids; dropdown id-or-class keys) are pairwise distinct, the registry
holds a handle for every modal and dropdown element keyed as stated; every
entry comes from a discovered element, so later elements have no handle,
and a key never discovered resolves to nothing; the only post-init
operation on the registry (`modalsHide`) preserves its keys and handles. -/
theorem c8_registry_amended (mels : List ModalElem) (dels : List DropdownElem)
    (m : List (String × ModalHandle)) (k : String) (el : ModalElem)
    (del : DropdownElem)
    (hm : (mels.map ModalElem.id).Nodup) (hd : (dels.map dropdownKey).Nodup)
    (hmem : el ∈ mels) (hdmem : del ∈ dels)
    (hk : ∀ e ∈ mels, e.id ≠ k) :
    mapGet (initializeModals mels) el.id = some { elem := el, shown := false } ∧
    mapGet (initializeDropdowns dels) (dropdownKey del) = some { elem := del } ∧
    mapGet (initializeModals mels) k = none ∧
    (∀ kv ∈ initializeModals mels, kv.2.elem ∈ mels ∧ kv.1 = kv.2.elem.id) ∧
    (∀ kv ∈ initializeDropdowns dels,
      kv.2.elem ∈ dels ∧ kv.1 = dropdownKey kv.2.elem) ∧
    ((modalsHide m "bookingModal").map Prod.fst = m.map Prod.fst) ∧
    (∀ kv2 ∈ modalsHide m "bookingModal",
      ∃ kv1, kv1 ∈ m ∧ kv2.1 = kv1.1 ∧ kv2.2.elem = kv1.2.elem) := by
  refine ⟨?_, ?_, ?_, ?_, ?_, ?_, ?_⟩
  · unfold initializeModals
    exact mapGet_setFold_mem mels ModalElem.id
      (fun e => ({ elem := e, shown := false } : ModalHandle)) [] el hmem hm
  · unfold initializeDropdowns
    exact mapGet_setFold_mem dels dropdownKey
      (fun e => ({ elem := e } : DropdownHandle)) [] del hdmem hd
  · unfold initializeModals
    rw [mapGet_setFold_absent mels ModalElem.id
      (fun e => ({ elem := e, shown := false } : ModalHandle)) [] k hk]
    rfl
  · intro kv hkv
    unfold initializeModals at hkv
    rcases mem_setFold mels ModalElem.id
      (fun e => ({ elem := e, shown := false } : ModalHandle)) [] kv hkv with
      h | ⟨e2, he2, hkve⟩
    · exact absurd h (List.not_mem_nil kv)
    · rw [hkve]
      exact ⟨he2, rfl⟩
  · intro kv hkv
    unfold initializeDropdowns at hkv
    rcases mem_setFold dels dropdownKey
      (fun e => ({ elem := e } : DropdownHandle)) [] kv hkv with
      h | ⟨e2, he2, hkve⟩
    · exact absurd h (List.not_mem_nil kv)
    · rw [hkve]
      exact ⟨he2, rfl⟩
  · exact modalsHide_keys m "bookingModal"
  · exact fun kv2 h => mem_modalsHide m "bookingModal" kv2 h

/-- Witness for C8 at a concrete page: one modal with id `bookingModal`,
one id-less dropdown keyed by class, and a registry on which `modalsHide`
keeps the key. -/
theorem c8_registry_amended_witness :
    mapGet (initializeModals [{ node := 0, id := "bookingModal" }]) "bookingModal" =
      some { elem := { node := 0, id := "bookingModal" }, shown := false } ∧
    mapGet (initializeDropdowns [{ node := 1, id := "", className := "dropdown-toggle" }])
      "dropdown-toggle" = some { elem := { node := 1, id := "", className := "dropdown-toggle" } } ∧
    mapGet (initializeModals [{ node := 0, id := "bookingModal" }]) "later" = none := by
  have h := c8_registry_amended [{ node := 0, id := "bookingModal" }]
    [{ node := 1, id := "", className := "dropdown-toggle" }]
    [] "later" { node := 0, id := "bookingModal" }
    { node := 1, id := "", className := "dropdown-toggle" }
    (by decide) (by decide) (by decide) (by decide) (by decide)
  exact ⟨h.1, h.2.1, h.2.2.1⟩

/-- Counterexample to C2 as stated: in `exRangeForm` both datetime fields
hold past instants, so each is individually invalid (`PastDate`), yet the
cross-field check still runs — it is gated only on both values being
non-empty — and reports `InvalidRange` on the check-out field, replacing
its own `PastDate` message. -/
theorem c2_counterexample :
    validateFieldMsg exTodayKey exCheckinField.core = some msgPastDate ∧
    validateFieldMsg exTodayKey exCheckoutField.core = some msgPastDate ∧
    checkinPos exRangeForm = some (0, 0) ∧
    checkoutPos exRangeForm = some (0, 1) ∧
    (validateBookingForm exTodayKey exRangeForm).2.map Group.errors = [[msgRange]] ∧
    (validateBookingForm exTodayKey exRangeForm).1 = false := by decide

/-- Claim C2 (amended): the cross-field check is the last stage of
full-form validation; whenever the two selected datetime fields exist and
hold non-empty values it runs regardless of their individual validity,
failing with `InvalidRange` — shown on the check-out field, replacing any
error there — exactly when the parsed check-out instant is less than or
equal to the parsed check-in instant (comparisons with an unparseable
value are false). -/
theorem c2_cross_field_amended (today : Nat) (form : Form) (b : Bool)
    (ci co : Nat × Nat)
    (hci : checkinPos form = some ci) (hco : checkoutPos form = some co) :
    (validateBookingForm today form =
      crossCheckDateRange (bookingRequiredPass today form)) ∧
    (valueAt form ci ≠ "" → valueAt form co ≠ "" →
      ((jsDateLe (parseDatetimeLocal (valueAt form co))
          (parseDatetimeLocal (valueAt form ci)) = true →
        crossCheckDateRange (b, form) =
          (false, showFieldErrorAt form co msgRange)) ∧
      (jsDateLe (parseDatetimeLocal (valueAt form co))
          (parseDatetimeLocal (valueAt form ci)) = false →
        crossCheckDateRange (b, form) = (b, form)))) ∧
    (valueAt form ci = "" → crossCheckDateRange (b, form) = (b, form)) ∧
    (valueAt form co = "" → crossCheckDateRange (b, form) = (b, form)) ∧
    (∀ x y : Nat, jsDateLe (some x) (some y) = decide (x ≤ y)) ∧
    (∀ o : Option Nat, jsDateLe none o = false ∧ jsDateLe o none = false) := by
  refine ⟨rfl, ?_, ?_, ?_, fun x y => rfl, ?_⟩
  · intro hvi hvo
    exact ⟨fun hle => crossCheck_fires b form ci co hci hco hvi hvo hle,
      fun hle => crossCheck_skips_le b form ci co hci hco hle⟩
  · intro hvi
    exact crossCheck_skips_empty b form ci co hci hco (fun h => h.1 hvi)
  · intro hvo
    exact crossCheck_skips_empty b form ci co hci hco (fun h => h.2 hvo)
  · intro o
    cases o <;> exact ⟨rfl, rfl⟩

/-- Witness for C2 (amended) on `exRangeForm`: the selected check-out
value parses to an instant not after check-in, so the cross-check shows
`InvalidRange` on the check-out position. -/
theorem c2_cross_field_amended_witness :
    crossCheckDateRange (true, exRangeForm) =
      (false, showFieldErrorAt exRangeForm (0, 1) msgRange) :=
  ((c2_cross_field_amended exTodayKey exRangeForm true (0, 0) (0, 1)
    (by decide) (by decide)).2.1 (by decide) (by decide)).1 (by decide)

/-- Counterexample to C9 as stated: `exMixedForm` holds exactly one
datetime-local input with a non-empty value, but a text input precedes it
among the same siblings, so the `:first-of-type` selector matches no
datetime input, the cross-check is skipped entirely, validation succeeds
and no `InvalidRange` error is shown anywhere. -/
theorem c9_counterexample :
    ((allCores exMixedForm).filter
      (fun c => c.itype == InputType.datetimeLocal)).length = 1 ∧
    exLoneDateField.core.value ≠ "" ∧
    checkinPos exMixedForm = none ∧
    validateBookingForm 0 exMixedForm = (true, exMixedForm) ∧
    (∀ g ∈ (validateBookingForm 0 exMixedForm).2, msgRange ∉ g.errors) := by
  decide

/-- Claim C9 (amended): for a booking form in which every parent wraps a
single control, whose only datetime-local input sits alone in its parent
(hence is both `input:first-of-type` and `input:last-of-type` there) and
holds a valid datetime value, full-form validation selects that input as
both check-in and check-out, compares its value with itself, the
`check-out ≤ check-in` condition holds, and `InvalidRange` is shown on
that field while validation fails. -/
theorem c9_single_datetime_amended (today : Nat) (A B : List Group) (g : Group)
    (fl : Field) (kv : Nat)
    (hsingle : ∀ g2 ∈ A ++ g :: B, ∃ f2, g2.fields = [f2])
    (hg : g.fields = [fl])
    (htag : fl.core.tag = Tag.input)
    (hdt : fl.core.itype = InputType.datetimeLocal)
    (hval : parseDatetimeLocal fl.core.value = some kv)
    (hA : ∀ g2 ∈ A, ∀ f2 ∈ g2.fields,
      ¬(f2.core.tag = Tag.input ∧ f2.core.itype = InputType.datetimeLocal))
    (hB : ∀ g2 ∈ B, ∀ f2 ∈ g2.fields,
      ¬(f2.core.tag = Tag.input ∧ f2.core.itype = InputType.datetimeLocal)) :
    checkinPos (A ++ g :: B) = some (A.length, 0) ∧
    checkoutPos (A ++ g :: B) = some (A.length, 0) ∧
    (validateBookingForm today (A ++ g :: B)).1 = false ∧
    (∃ g2, (validateBookingForm today (A ++ g :: B)).2.get? A.length = some g2 ∧
      msgRange ∈ g2.errors) := by
  have hformC : formCores (A ++ g :: B) = formCores A ++ [fl.core] :: formCores B := by
    simp [formCores, hg]
  have hA2 : ∀ cs, cs ∈ formCores A → ∀ c, c ∈ cs →
      ¬(c.tag = Tag.input ∧ c.itype = InputType.datetimeLocal) := by
    intro cs hcs c hc
    simp only [formCores] at hcs
    rcases List.mem_map.mp hcs with ⟨g2, hg2, rfl⟩
    rcases List.mem_map.mp hc with ⟨f2, hf2, rfl⟩
    exact hA g2 hg2 f2 hf2
  have hB2 : ∀ cs, cs ∈ formCores B → ∀ c, c ∈ cs →
      ¬(c.tag = Tag.input ∧ c.itype = InputType.datetimeLocal) := by
    intro cs hcs c hc
    simp only [formCores] at hcs
    rcases List.mem_map.mp hcs with ⟨g2, hg2, rfl⟩
    rcases List.mem_map.mp hc with ⟨f2, hf2, rfl⟩
    exact hB g2 hg2 f2 hf2
  have hsel : ∀ ofType : List FieldCore → Nat → Bool, ofType [fl.core] 0 = true →
      datetimeSel ofType (formCores (A ++ g :: B)) =
        [((A.length : Nat), (0 : Nat))] := by
    intro ofType hof
    rw [hformC, datetimeSel_append, datetimeSel_nil_of_no_datetime ofType _ hA2,
      List.nil_append, datetimeSel_cons,
      datetimeSel_nil_of_no_datetime ofType _ hB2]
    simp [List.enum, List.enumFrom, List.filterMap_cons, htag, hdt, hof,
      formCores]
  have hci : checkinPos (A ++ g :: B) = some (A.length, 0) := by
    unfold checkinPos
    rw [hsel isFirstOfTypeInput rfl]
    rfl
  have hco : checkoutPos (A ++ g :: B) = some (A.length, 0) := by
    unfold checkoutPos
    rw [hsel isLastOfTypeInput rfl]
    rfl
  have hcores := formCores_bookingRequiredPass today (A ++ g :: B)
  have hci2 : checkinPos (bookingRequiredPass today (A ++ g :: B)).2 =
      some (A.length, 0) := by
    rw [checkinPos_eq_of_formCores_eq _ _ hcores, hci]
  have hco2 : checkoutPos (bookingRequiredPass today (A ++ g :: B)).2 =
      some (A.length, 0) := by
    rw [checkoutPos_eq_of_formCores_eq _ _ hcores, hco]
  have hfield : fieldAt (A ++ g :: B) (A.length, 0) = some fl := by
    unfold fieldAt
    rw [show ((A.length, 0) : Nat × Nat).1 = A.length from rfl, get?_append_cons]
    show g.fields.get? 0 = some fl
    rw [hg]
    rfl
  have hvalAt : valueAt (bookingRequiredPass today (A ++ g :: B)).2
      (A.length, 0) = fl.core.value := by
    rw [valueAt_eq_of_formCores_eq _ _ _ hcores]
    unfold valueAt coreAt
    rw [hfield]
    rfl
  have hne : fl.core.value ≠ "" := by
    intro he
    rw [he] at hval
    simp [parseDatetimeLocal] at hval
  have hne2 : valueAt (bookingRequiredPass today (A ++ g :: B)).2
      (A.length, 0) ≠ "" := by
    rw [hvalAt]
    exact hne
  have hle : jsDateLe
      (parseDatetimeLocal (valueAt (bookingRequiredPass today (A ++ g :: B)).2
        (A.length, 0)))
      (parseDatetimeLocal (valueAt (bookingRequiredPass today (A ++ g :: B)).2
        (A.length, 0))) = true := by
    rw [hvalAt, hval]
    simp [jsDateLe]
  have hfire := crossCheck_fires (bookingRequiredPass today (A ++ g :: B)).1
    (bookingRequiredPass today (A ++ g :: B)).2 (A.length, 0) (A.length, 0)
    hci2 hco2 hne2 hne2 hle
  have hvb : validateBookingForm today (A ++ g :: B) =
      (false, showFieldErrorAt (bookingRequiredPass today (A ++ g :: B)).2
        (A.length, 0) msgRange) := by
    unfold validateBookingForm
    exact hfire
  refine ⟨hci, hco, by rw [hvb], ?_⟩
  have hpass := bookingRequiredPass_singleton today (A ++ g :: B) hsingle
  have hpg : (bookingRequiredPass today (A ++ g :: B)).2.get? A.length =
      some (passGroup today g) := by
    rw [hpass]
    show (List.map (passGroup today) (A ++ g :: B)).get? A.length = _
    rw [get?_map_fn, get?_append_cons]
    rfl
  refine ⟨showGroupError 0 msgRange (passGroup today g), ?_, ?_⟩
  · rw [hvb]
    show (listModify (showGroupError 0 msgRange) A.length
      (bookingRequiredPass today (A ++ g :: B)).2).get? A.length = _
    rw [get?_listModify_self, hpg]
    rfl
  · show msgRange ∈ (passGroup today g).errors.drop 1 ++ [msgRange]
    exact List.mem_append_right _ (List.mem_singleton.mpr rfl)

/-- Witness for C9 (amended): a one-control-per-parent form whose only
datetime input holds a valid future instant always fails with
`InvalidRange` on that very field. -/
theorem c9_single_datetime_amended_witness :
    checkinPos [({ fields := [exLoneDateField] } : Group)] = some (0, 0) ∧
    checkoutPos [({ fields := [exLoneDateField] } : Group)] = some (0, 0) ∧
    (validateBookingForm 0 [({ fields := [exLoneDateField] } : Group)]).1 = false := by
  have h := c9_single_datetime_amended 0 [] [] { fields := [exLoneDateField] }
    exLoneDateField ((parseDatetimeLocal "2099-01-01T10:00").getD 0)
    (by intro g2 hg2
        rcases List.mem_singleton.mp hg2 with rfl
        exact ⟨exLoneDateField, rfl⟩)
    rfl rfl rfl (by decide) (by intro g2 hg2 _ _ _; exact absurd hg2 (List.not_mem_nil g2))
    (by intro g2 hg2 _ _ _; exact absurd hg2 (List.not_mem_nil g2))
  exact ⟨h.1, h.2.1, h.2.2.1⟩

/-- Counterexample to C3 as stated: in `exPairForm` two required controls
share one parent and both fail (empty required text, invalid phone), but
the second field's `clearFieldError` removes the parent's first
`.invalid-feedback` element — the first field's message — so after the
aborted submission only the phone message remains and the required-field
message is shown nowhere; not every failing field shows its error. -/
theorem c3_counterexample :
    validateFieldMsg 0 exNameField.core = some msgRequired ∧
    validateFieldMsg 0 exPhoneField.core = some msgPhone ∧
    (validateBookingForm 0 exPairForm).1 = false ∧
    (validateBookingForm 0 exPairForm).2.map Group.errors = [[msgPhone]] ∧
    (∀ g ∈ (validateBookingForm 0 exPairForm).2, msgRequired ∉ g.errors) := by
  decide

/-- Claim C3 (amended): when validation fails, submission aborts
atomically — no data is collected, the submit control is untouched, no
notification is shown, the form keeps its values — and, provided every
parent wraps a single control and carries at most one prior error
annotation, every failing required field gets the `is-invalid` class and
exactly its own message inline (replacing any prior annotation), except
that the cross-field `InvalidRange` message may supersede the message on
the check-out field; passing required fields end with no annotation
(or the superseding `InvalidRange`). -/
theorem c3_invalid_submission_amended (today : Nat) (s : BookingState)
    (hsingle : ∀ g ∈ s.form, ∃ fl, g.fields = [fl])
    (herr : ∀ g ∈ s.form, g.errors.length ≤ 1)
    (hfail : (validateBookingForm today s.form).1 = false) :
    (handleBookingSubmission today s =
      ({ s with form := (validateBookingForm today s.form).2 }, none)) ∧
    (∀ gi g fl msg, s.form.get? gi = some g → g.fields = [fl] →
      fl.core.required = true → validateFieldMsg today fl.core = some msg →
      ∃ g2, (validateBookingForm today s.form).2.get? gi = some g2 ∧
        (∀ f2 ∈ g2.fields, f2.invalidClass = true) ∧
        (g2.errors = [msg] ∨ g2.errors = [msgRange])) ∧
    (∀ gi g fl, s.form.get? gi = some g → g.fields = [fl] →
      fl.core.required = true → validateFieldMsg today fl.core = none →
      ∃ g2, (validateBookingForm today s.form).2.get? gi = some g2 ∧
        (g2.errors = [] ∨ g2.errors = [msgRange])) := by
  have hpass := bookingRequiredPass_singleton today s.form hsingle
  have hvb : validateBookingForm today s.form =
      crossCheckDateRange ((bookingRequiredPass today s.form).1,
        (bookingRequiredPass today s.form).2) := rfl
  refine ⟨?_, ?_, ?_⟩
  · simp [handleBookingSubmission, hfail]
  · intro gi g fl msg hgi hgfl hreq hmsg
    have hpg : (bookingRequiredPass today s.form).2.get? gi =
        some (passGroup today g) := by
      rw [hpass]
      show (List.map (passGroup today) s.form).get? gi = _
      rw [get?_map_fn, hgi]
      rfl
    have hdrop : g.errors.drop 1 = [] :=
      List.drop_eq_nil_of_le (herr g (List.get?_mem hgi))
    have hpgeq : passGroup today g = showGroupError 0 msg g := by
      unfold passGroup
      rw [hgfl]
      simp [hreq, hmsg]
    have hfields : (showGroupError 0 msg g).fields =
        [{ fl with invalidClass := true }] := by
      simp [showGroupError, clearGroupError, hgfl, listModify]
    have herrs : (showGroupError 0 msg g).errors = [msg] := by
      simp [showGroupError, clearGroupError, hdrop]
    rcases crossCheck_cases (bookingRequiredPass today s.form).1
        (bookingRequiredPass today s.form).2 with hcc | ⟨co, hcoPos, hcc⟩
    · refine ⟨passGroup today g, ?_, ?_, ?_⟩
      · rw [hvb, hcc]
        exact hpg
      · rw [hpgeq, hfields]
        intro f2 hf2
        rcases List.mem_singleton.mp hf2 with rfl
        rfl
      · rw [hpgeq, herrs]
        exact Or.inl rfl
    · by_cases hcogi : co.1 = gi
      · refine ⟨showGroupError co.2 msgRange (passGroup today g), ?_, ?_, ?_⟩
        · rw [hvb, hcc]
          show (listModify (showGroupError co.2 msgRange) co.1
            (bookingRequiredPass today s.form).2).get? gi = _
          rw [hcogi, get?_listModify_self, hpg]
          rfl
        · rw [hpgeq]
          intro f2 hf2
          have hfe : (showGroupError co.2 msgRange
              (showGroupError 0 msg g)).fields =
              listModify (fun x => { x with invalidClass := true }) co.2
                (listModify (fun x => { x with invalidClass := false }) co.2
                  (showGroupError 0 msg g).fields) := rfl
          rw [hfe, listModify_listModify, hfields] at hf2
          rcases mem_listModify _ _ _ _ hf2 with ⟨x, hx, rfl⟩ | hf3
          · rfl
          · rcases List.mem_singleton.mp hf3 with rfl
            rfl
        · rw [hpgeq]
          right
          show (clearGroupError co.2 (showGroupError 0 msg g)).errors ++
            [msgRange] = [msgRange]
          rw [show (clearGroupError co.2 (showGroupError 0 msg g)).errors =
            (showGroupError 0 msg g).errors.drop 1 from rfl, herrs]
          rfl
      · refine ⟨passGroup today g, ?_, ?_, ?_⟩
        · rw [hvb, hcc]
          show (listModify (showGroupError co.2 msgRange) co.1
            (bookingRequiredPass today s.form).2).get? gi = _
          rw [get?_listModify_ne _ _ _ _ hcogi, hpg]
        · rw [hpgeq, hfields]
          intro f2 hf2
          rcases List.mem_singleton.mp hf2 with rfl
          rfl
        · rw [hpgeq, herrs]
          exact Or.inl rfl
  · intro gi g fl hgi hgfl hreq hmsg
    have hpg : (bookingRequiredPass today s.form).2.get? gi =
        some (passGroup today g) := by
      rw [hpass]
      show (List.map (passGroup today) s.form).get? gi = _
      rw [get?_map_fn, hgi]
      rfl
    have hdrop : g.errors.drop 1 = [] :=
      List.drop_eq_nil_of_le (herr g (List.get?_mem hgi))
    have hpgeq : passGroup today g = clearGroupError 0 g := by
      unfold passGroup
      rw [hgfl]
      simp [hreq, hmsg]
    have herrs : (clearGroupError 0 g).errors = [] := by
      simp [clearGroupError, hdrop]
    rcases crossCheck_cases (bookingRequiredPass today s.form).1
        (bookingRequiredPass today s.form).2 with hcc | ⟨co, hcoPos, hcc⟩
    · refine ⟨passGroup today g, ?_, ?_⟩
      · rw [hvb, hcc]
        exact hpg
      · rw [hpgeq, herrs]
        exact Or.inl rfl
    · by_cases hcogi : co.1 = gi
      · refine ⟨showGroupError co.2 msgRange (passGroup today g), ?_, ?_⟩
        · rw [hvb, hcc]
          show (listModify (showGroupError co.2 msgRange) co.1
            (bookingRequiredPass today s.form).2).get? gi = _
          rw [hcogi, get?_listModify_self, hpg]
          rfl
        · rw [hpgeq]
          right
          show (clearGroupError co.2 (clearGroupError 0 g)).errors ++
            [msgRange] = [msgRange]
          rw [show (clearGroupError co.2 (clearGroupError 0 g)).errors =
            (clearGroupError 0 g).errors.drop 1 from rfl, herrs]
          rfl
      · refine ⟨passGroup today g, ?_, ?_⟩
        · rw [hvb, hcc]
          show (listModify (showGroupError co.2 msgRange) co.1
            (bookingRequiredPass today s.form).2).get? gi = _
          rw [get?_listModify_ne _ _ _ _ hcogi, hpg]
        · rw [hpgeq, herrs]
          exact Or.inl rfl

/-- Witness for C3 (amended) on a one-control-per-parent failing form: the
submission aborts with the state otherwise untouched, and the empty
required name field shows the required message. -/
theorem c3_invalid_submission_amended_witness :
    (handleBookingSubmission 0 exFailState =
      ({ exFailState with form := (validateBookingForm 0 exFailState.form).2 },
        none)) ∧
    (∃ g2, (validateBookingForm 0 exFailState.form).2.get? 0 = some g2 ∧
      (∀ f2 ∈ g2.fields, f2.invalidClass = true) ∧
      (g2.errors = [msgRequired] ∨ g2.errors = [msgRange])) := by
  have h := c3_invalid_submission_amended 0 exFailState
    (by intro g hg
        rcases List.mem_cons.mp hg with rfl | hg2
        · exact ⟨exNameField, rfl⟩
        · rcases List.mem_singleton.mp hg2 with rfl
          exact ⟨exPhoneField, rfl⟩)
    (by decide) (by decide)
  exact ⟨h.1, h.2.1 0 { fields := [exNameField] } exNameField msgRequired
    rfl rfl rfl (by decide)⟩

/-- Claim C1: when full-form validation succeeds, submission collects a
flat key-to-value mapping from every control that has a name or id (each
such key resolving to a value contributed by such a control), disables the
submit control with the `SUBMITTING...` label and schedules a 2000ms
action which restores the control's original label and enabled state,
shows the success notification as the single banner, hides the
`bookingModal` handle when tracked (and only changes its shown flag), and
resets every control to its (empty) default value. -/
theorem c1_valid_submission (today : Nat) (s : BookingState)
    (hvalid : (validateBookingForm today s.form).1 = true)
    (hdef : ∀ c ∈ allCores s.form, c.defaultValue = "")
    (henabled : s.button.disabled = false) :
    (handleBookingSubmission today s =
      ({ s with
          form := (validateBookingForm today s.form).2
          button := { textContent := submittingLabel, disabled := true } },
        some (collectFormData (validateBookingForm today s.form).2,
          { delayMs := 2000, originalText := s.button.textContent }))) ∧
    (∀ c ∈ allCores (validateBookingForm today s.form).2,
      (c.name ≠ "" ∨ c.id ≠ "") →
      (mapGet (collectFormData (validateBookingForm today s.form).2)
        (fieldKey c)).isSome = true) ∧
    (∀ kv ∈ collectFormData (validateBookingForm today s.form).2,
      ∃ c, c ∈ allCores (validateBookingForm today s.form).2 ∧
        (c.name ≠ "" ∨ c.id ≠ "") ∧ fieldKey c = kv.1 ∧ c.value = kv.2) ∧
    ((submitBookingFinish
        { delayMs := 2000, originalText := s.button.textContent }
        (handleBookingSubmission today s).1).button = s.button) ∧
    ((submitBookingFinish
        { delayMs := 2000, originalText := s.button.textContent }
        (handleBookingSubmission today s).1).notifSys.notifs.length = 1 ∧
      ∀ n ∈ (submitBookingFinish
        { delayMs := 2000, originalText := s.button.textContent }
        (handleBookingSubmission today s).1).notifSys.notifs,
        n.message = bookingSuccessMsg ∧ n.ntype = "success") ∧
    (mapGet (submitBookingFinish
        { delayMs := 2000, originalText := s.button.textContent }
        (handleBookingSubmission today s).1).modals "bookingModal" =
      (mapGet s.modals "bookingModal").map (fun h2 => { h2 with shown := false })) ∧
    (∀ c ∈ allCores (submitBookingFinish
        { delayMs := 2000, originalText := s.button.textContent }
        (handleBookingSubmission today s).1).form, c.value = "") := by
  have h1 : handleBookingSubmission today s =
      ({ s with
          form := (validateBookingForm today s.form).2
          button := { textContent := submittingLabel, disabled := true } },
        some (collectFormData (validateBookingForm today s.form).2,
          { delayMs := 2000, originalText := s.button.textContent })) := by
    simp [handleBookingSubmission, hvalid, submitBookingStart]
  have hall : allCores (validateBookingForm today s.form).2 = allCores s.form :=
    allCores_validateBookingForm today s.form
  have hbtn : ({ textContent := s.button.textContent, disabled := false } :
      ButtonState) = s.button := by
    rw [← henabled]
  refine ⟨h1, ?_, ?_, ?_, ⟨rfl, ?_⟩, ?_, ?_⟩
  · intro c hc hkey
    exact mapGet_isSome_collectFold
      (allCores (validateBookingForm today s.form).2) [] c hc hkey
  · intro kv hkv
    rcases mem_collectFold (allCores (validateBookingForm today s.form).2) []
      kv hkv with h | ⟨c, hc, hckey, hk, hv⟩
    · exact absurd h (List.not_mem_nil kv)
    · exact ⟨c, hc, hckey, hk, hv⟩
  · exact hbtn
  · intro n hn
    rcases List.mem_singleton.mp hn with rfl
    exact ⟨rfl, rfl⟩
  · have hFm : (handleBookingSubmission today s).1.modals = s.modals := by
      rw [h1]
    show mapGet (modalsHide (handleBookingSubmission today s).1.modals
      "bookingModal") "bookingModal" = _
    rw [hFm]
    exact mapGet_modalsHide s.modals "bookingModal"
  · intro c hc
    have hFf : (handleBookingSubmission today s).1.form =
        (validateBookingForm today s.form).2 := by
      rw [h1]
    rw [show (submitBookingFinish
        { delayMs := 2000, originalText := s.button.textContent }
        (handleBookingSubmission today s).1).form =
      formReset (handleBookingSubmission today s).1.form from rfl, hFf,
      allCores_formReset, hall] at hc
    rcases List.mem_map.mp hc with ⟨c0, hc0, rfl⟩
    exact hdef c0 hc0

/-- Witness for C1 at a concrete valid booking state with a tracked
`bookingModal` handle. -/
theorem c1_valid_submission_witness :
    (handleBookingSubmission 0 exBookingState =
      ({ exBookingState with
          form := (validateBookingForm 0 exBookingState.form).2,
          button := { textContent := submittingLabel, disabled := true } },
        some (collectFormData (validateBookingForm 0 exBookingState.form).2,
          { delayMs := 2000, originalText := "SUBMIT REQUEST" }))) ∧
    ((submitBookingFinish { delayMs := 2000, originalText := "SUBMIT REQUEST" }
        (handleBookingSubmission 0 exBookingState).1).button =
      exBookingState.button) ∧
    (mapGet (submitBookingFinish
        { delayMs := 2000, originalText := "SUBMIT REQUEST" }
        (handleBookingSubmission 0 exBookingState).1).modals "bookingModal" =
      some { elem := { node := 0, id := "bookingModal" }, shown := false }) := by
  have h := c1_valid_submission 0 exBookingState (by decide) (by decide) rfl
  refine ⟨h.1, h.2.2.2.1, ?_⟩
  rw [show ("SUBMIT REQUEST" : String) = exBookingState.button.textContent from rfl,
    h.2.2.2.2.2.1]
  decide

end Experience
